import Mathlib

/-!
Verification development for the trait-bound inference core of the
reflect repository (src/trait_inference.rs, src/ty.rs, src/path.rs).

Embedding conventions:
 - The Rust newtype Type(pub TypeNode) is flattened: Lean works with
   TypeNode directly wherever the source wraps or unwraps Type.
 - Rust Vec / HashSet / HashMap / BTreeMap are modelled as Lean lists:
   HashSet as an insertion-ordered duplicate-free list, HashMap and
   BTreeMap as association lists with insert-overwrite semantics, and
   BTreeSet TypeEqualitySetRef as a sorted duplicate-free list of Nat.
   HashSet iteration order is unspecified in Rust; the embedding fixes
   insertion order.
 - Fields of the type grammar that recursively mention the grammar use
   bespoke list types (TyList, BoundList, SegList, ArgList,
   ConstraintList) so that the mutual inductive block is non-nested and
   structural recursion compiles to kernel-reducible recursors.
 - panic!/unimplemented!/todo! become Except.error values:
   arityMismatch for the two different-number-of-elements panics,
   unsupportedConstruct for unimplemented!, todoUnimplemented for
   todo!, internalInconsistency for the incompatible-types panics and
   for index/unwrap panics that the store invariants rule out.
 - Recursive algorithms whose recursion is not structural
   (insert_as_equal_to and the most-concrete resolver) take a Nat fuel
   argument and are structural in the fuel; running out of fuel is the
   distinguished error outOfFuel, which no theorem below ever treats
   as program behaviour.
 - Identifier spaces TypeParamRef, LifetimeRef, TypeEqualitySetRef are
   Nat. Rust identifiers (Ident) are String.
 - Constructor names that collide with Lean keywords are renamed:
   GenericParam::Type / GenericConstraint::Type / GenericArgument::Type
   become typeParam / typePred / typeArg, and the corresponding
   Lifetime variants become lifetimeParam / lifetimeConstraint /
   lifetimeArg. TraitBound lifetimes and PredicateType lifetimes keep
   only their LifetimeRef payloads.
 - DataStructure keeps its name and generics; its data payload (the
   field list) is omitted because no operation of the analysed core
   reads it.
-/

namespace Reflect

/-- Fatal outcomes of the analysis pass (spec section 7), plus the
fuel-exhaustion marker of the embedding. -/
inductive InferenceError where
  | arityMismatch
  | unsupportedConstruct
  | todoUnimplemented
  | internalInconsistency
  | outOfFuel
deriving DecidableEq

/-- Stable index of an equality set inside TypeEqualitySets.sets
(source: TypeEqualitySetRef(usize)). -/
abbrev TypeEqualitySetRef := Nat

/-- Stable identifier of a generic type parameter (source: TypeParamRef). -/
abbrev TypeParamRef := Nat

/-- Stable identifier of a lifetime (source: LifetimeRef). -/
abbrev LifetimeRef := Nat

/-- Modelled from the spec: a generic parameter is either a type
parameter or a lifetime parameter (the defining enum lives outside the
three analysed files; only type_param_ref and lifetime_ref are used by
them). -/
inductive GenericParam where
  | typeParam (r : TypeParamRef)
  | lifetimeParam (r : LifetimeRef)
deriving DecidableEq

/-- Source GenericParam::type_param_ref: Some for a type parameter. -/
def GenericParam.type_param_ref : GenericParam → Option TypeParamRef
  | .typeParam r => some r
  | .lifetimeParam _ => none

mutual

/-- The closed type grammar (source: enum TypeNode in ty.rs). -/
inductive TypeNode where
  | Infer
  | Tuple (types : TyList)
  | PrimitiveStr
  | Reference (lifetime : Option LifetimeRef) (inner : TypeNode)
  | ReferenceMut (lifetime : Option LifetimeRef) (inner : TypeNode)
  | Dereference (inner : TypeNode)
  | TraitObject (bounds : BoundList)
  | DataStructure (name : String) (generics : Generics)
  | Path (path : Path)
  | TypeParam (r : TypeParamRef)

/-- Ordered list of types (source: Vec of Type). -/
inductive TyList where
  | nil
  | cons (hd : TypeNode) (tl : TyList)

/-- Source enum TypeParamBound: a trait bound or a lifetime bound. -/
inductive TypeParamBound where
  | Trait (bound : TraitBound)
  | Lifetime (r : LifetimeRef)

/-- Ordered list of bounds (source: Vec of TypeParamBound). -/
inductive BoundList where
  | nil
  | cons (hd : TypeParamBound) (tl : BoundList)

/-- Source struct TraitBound: a trait path plus bound lifetimes. -/
inductive TraitBound where
  | mk (path : Path) (lifetimes : List LifetimeRef)

/-- Source struct Path in path.rs: leading-colon flag plus segments. -/
inductive Path where
  | mk (global : Bool) (segments : SegList)

/-- Ordered list of path segments (source: Vec of PathSegment). -/
inductive SegList where
  | nil
  | cons (hd : PathSegment) (tl : SegList)

/-- Source struct PathSegment: an identifier plus its arguments. -/
inductive PathSegment where
  | mk (ident : String) (args : PathArguments)

/-- Source enum PathArguments. AngleBracketedGenericArguments and its
inner GenericArguments wrapper are flattened to the argument list. -/
inductive PathArguments where
  | None
  | AngleBracketed (args : ArgList)
  | Parenthesized (inputs : TyList) (output : OptionTy)

/-- Ordered list of generic arguments (source: Vec of GenericArgument). -/
inductive ArgList where
  | nil
  | cons (hd : GenericArgument) (tl : ArgList)

/-- Source enum GenericArgument restricted to the two variants the
analysed core constructs and consumes: a type argument or a lifetime
argument. -/
inductive GenericArgument where
  | typeArg (ty : TypeNode)
  | lifetimeArg (r : LifetimeRef)

/-- Optional return type of parenthesized path arguments
(source: Option of Type inside ParenthesizedGenericArguments). -/
inductive OptionTy where
  | noneTy
  | someTy (ty : TypeNode)

/-- Modelled from the spec: PredicateType with boundedType, bounds and
on-for lifetimes (the defining struct lives outside the three analysed
files; its three fields are exactly the ones trait_inference.rs
constructs and reads). -/
inductive PredicateType where
  | mk (lifetimes : List LifetimeRef) (bounded_ty : TypeNode) (bounds : BoundList)

/-- Modelled from the spec: GenericConstraint is Type-kind (a
PredicateType) or Lifetime-kind (the defining enum lives outside the
three analysed files). -/
inductive GenericConstraint where
  | typePred (pred : PredicateType)
  | lifetimeConstraint (l : LifetimeRef)

/-- Ordered list of constraints (source: Vec of GenericConstraint). -/
inductive ConstraintList where
  | nil
  | cons (hd : GenericConstraint) (tl : ConstraintList)

/-- Modelled from the spec: Generics bundles declared parameters and
declared constraints (the defining struct lives outside the three
analysed files; both fields are read by trait_inference.rs). -/
inductive Generics where
  | mk (params : List GenericParam) (constraints : ConstraintList)

end

namespace PredicateType

/-- Bound lifetimes of the predicate. -/
def lifetimes : PredicateType → List LifetimeRef
  | .mk l _ _ => l

/-- The constrained type. -/
def bounded_ty : PredicateType → TypeNode
  | .mk _ t _ => t

/-- The bounds imposed on the constrained type. -/
def bounds : PredicateType → BoundList
  | .mk _ _ b => b

end PredicateType

namespace TraitBound

/-- The trait path of the bound. -/
def path : TraitBound → Path
  | .mk p _ => p

/-- The bound lifetimes. -/
def lifetimes : TraitBound → List LifetimeRef
  | .mk _ l => l

end TraitBound

namespace Path

/-- Leading-colon flag. -/
def global : Path → Bool
  | .mk g _ => g

/-- The ordered segments. -/
def segments : Path → SegList
  | .mk _ s => s

end Path

namespace PathSegment

/-- The segment identifier. -/
def ident : PathSegment → String
  | .mk i _ => i

/-- The segment arguments. -/
def args : PathSegment → PathArguments
  | .mk _ a => a

end PathSegment

namespace Generics

/-- Declared generic parameters. -/
def params : Generics → List GenericParam
  | .mk p _ => p

/-- Declared constraints. -/
def constraints : Generics → ConstraintList
  | .mk _ c => c

end Generics

/-- Number of elements of a TyList. -/
def TyList.length : TyList → Nat
  | .nil => 0
  | .cons _ tl => tl.length + 1

/-- Number of elements of a BoundList. -/
def BoundList.length : BoundList → Nat
  | .nil => 0
  | .cons _ tl => tl.length + 1

/-- Number of elements of a SegList. -/
def SegList.length : SegList → Nat
  | .nil => 0
  | .cons _ tl => tl.length + 1

/-- Number of elements of an ArgList. -/
def ArgList.length : ArgList → Nat
  | .nil => 0
  | .cons _ tl => tl.length + 1

/-- Last element of a SegList (source: path[path.len() - 1]). -/
def SegList.getLast? : SegList → Option PathSegment
  | .nil => none
  | .cons s .nil => some s
  | .cons _ (.cons s tl) => SegList.getLast? (.cons s tl)

/-- Conversion to a standard list, used only in theorem statements. -/
def TyList.toList : TyList → List TypeNode
  | .nil => []
  | .cons h tl => h :: tl.toList

/-- Conversion to a standard list, used only in theorem statements. -/
def SegList.toList : SegList → List PathSegment
  | .nil => []
  | .cons h tl => h :: tl.toList

/-- Conversion to a standard list, used only in theorem statements. -/
def ArgList.toList : ArgList → List GenericArgument
  | .nil => []
  | .cons h tl => h :: tl.toList

/-- Conversion to a standard list, used only in theorem statements. -/
def BoundList.toList : BoundList → List TypeParamBound
  | .nil => []
  | .cons h tl => h :: tl.toList

/-- Conversion to a standard list, used only in theorem statements. -/
def ConstraintList.toList : ConstraintList → List GenericConstraint
  | .nil => []
  | .cons h tl => h :: tl.toList

mutual

/-- Structural equality on TypeNode, mirroring the derived PartialEq
of the source. -/
def tyBeq : TypeNode → TypeNode → Bool
  | .Infer, .Infer => true
  | .Tuple l1, .Tuple l2 => tyListBeq l1 l2
  | .PrimitiveStr, .PrimitiveStr => true
  | .Reference lt1 i1, .Reference lt2 i2 => lt1 == lt2 && tyBeq i1 i2
  | .ReferenceMut lt1 i1, .ReferenceMut lt2 i2 => lt1 == lt2 && tyBeq i1 i2
  | .Dereference i1, .Dereference i2 => tyBeq i1 i2
  | .TraitObject b1, .TraitObject b2 => boundListBeq b1 b2
  | .DataStructure n1 g1, .DataStructure n2 g2 => n1 == n2 && genericsBeq g1 g2
  | .Path p1, .Path p2 => pathBeq p1 p2
  | .TypeParam r1, .TypeParam r2 => r1 == r2
  | _, _ => false
termination_by structural x _y => x

/-- Structural equality on TyList. -/
def tyListBeq : TyList → TyList → Bool
  | .nil, .nil => true
  | .cons h1 t1, .cons h2 t2 => tyBeq h1 h2 && tyListBeq t1 t2
  | _, _ => false
termination_by structural x _y => x

/-- Structural equality on TypeParamBound. -/
def boundBeq : TypeParamBound → TypeParamBound → Bool
  | .Trait b1, .Trait b2 => traitBoundBeq b1 b2
  | .Lifetime r1, .Lifetime r2 => r1 == r2
  | _, _ => false
termination_by structural x _y => x

/-- Structural equality on BoundList. -/
def boundListBeq : BoundList → BoundList → Bool
  | .nil, .nil => true
  | .cons h1 t1, .cons h2 t2 => boundBeq h1 h2 && boundListBeq t1 t2
  | _, _ => false
termination_by structural x _y => x

/-- Structural equality on TraitBound. -/
def traitBoundBeq : TraitBound → TraitBound → Bool
  | .mk p1 l1, .mk p2 l2 => pathBeq p1 p2 && l1 == l2
termination_by structural x _y => x

/-- Structural equality on Path. -/
def pathBeq : Path → Path → Bool
  | .mk g1 s1, .mk g2 s2 => g1 == g2 && segListBeq s1 s2
termination_by structural x _y => x

/-- Structural equality on SegList. -/
def segListBeq : SegList → SegList → Bool
  | .nil, .nil => true
  | .cons h1 t1, .cons h2 t2 => segBeq h1 h2 && segListBeq t1 t2
  | _, _ => false
termination_by structural x _y => x

/-- Structural equality on PathSegment. -/
def segBeq : PathSegment → PathSegment → Bool
  | .mk i1 a1, .mk i2 a2 => i1 == i2 && pathArgsBeq a1 a2
termination_by structural x _y => x

/-- Structural equality on PathArguments. -/
def pathArgsBeq : PathArguments → PathArguments → Bool
  | .None, .None => true
  | .AngleBracketed a1, .AngleBracketed a2 => argListBeq a1 a2
  | .Parenthesized i1 o1, .Parenthesized i2 o2 => tyListBeq i1 i2 && optionTyBeq o1 o2
  | _, _ => false
termination_by structural x _y => x

/-- Structural equality on ArgList. -/
def argListBeq : ArgList → ArgList → Bool
  | .nil, .nil => true
  | .cons h1 t1, .cons h2 t2 => argBeq h1 h2 && argListBeq t1 t2
  | _, _ => false
termination_by structural x _y => x

/-- Structural equality on GenericArgument. -/
def argBeq : GenericArgument → GenericArgument → Bool
  | .typeArg t1, .typeArg t2 => tyBeq t1 t2
  | .lifetimeArg r1, .lifetimeArg r2 => r1 == r2
  | _, _ => false
termination_by structural x _y => x

/-- Structural equality on OptionTy. -/
def optionTyBeq : OptionTy → OptionTy → Bool
  | .noneTy, .noneTy => true
  | .someTy t1, .someTy t2 => tyBeq t1 t2
  | _, _ => false
termination_by structural x _y => x

/-- Structural equality on PredicateType. -/
def predBeq : PredicateType → PredicateType → Bool
  | .mk l1 t1 b1, .mk l2 t2 b2 => l1 == l2 && tyBeq t1 t2 && boundListBeq b1 b2
termination_by structural x _y => x

/-- Structural equality on GenericConstraint. -/
def constraintBeq : GenericConstraint → GenericConstraint → Bool
  | .typePred p1, .typePred p2 => predBeq p1 p2
  | .lifetimeConstraint l1, .lifetimeConstraint l2 => l1 == l2
  | _, _ => false
termination_by structural x _y => x

/-- Structural equality on ConstraintList. -/
def constraintListBeq : ConstraintList → ConstraintList → Bool
  | .nil, .nil => true
  | .cons h1 t1, .cons h2 t2 => constraintBeq h1 h2 && constraintListBeq t1 t2
  | _, _ => false
termination_by structural x _y => x

/-- Structural equality on Generics. -/
def genericsBeq : Generics → Generics → Bool
  | .mk p1 c1, .mk p2 c2 => p1 == p2 && constraintListBeq c1 c2

termination_by structural x _y => x
end

end Reflect

namespace Reflect

set_option maxHeartbeats 2000000 in
mutual

/-- tyBeq is reflexive. -/
def tyBeq_refl : (t : TypeNode) → tyBeq t t = true
  | .Infer => rfl
  | .Tuple l => by simp [tyBeq, tyListBeq_refl l]
  | .PrimitiveStr => rfl
  | .Reference lt i => by simp [tyBeq, tyBeq_refl i]
  | .ReferenceMut lt i => by simp [tyBeq, tyBeq_refl i]
  | .Dereference i => by simp [tyBeq, tyBeq_refl i]
  | .TraitObject b => by simp [tyBeq, boundListBeq_refl b]
  | .DataStructure n g => by simp [tyBeq, genericsBeq_refl g]
  | .Path p => by simp [tyBeq, pathBeq_refl p]
  | .TypeParam r => by simp [tyBeq]

/-- tyListBeq is reflexive. -/
def tyListBeq_refl : (l : TyList) → tyListBeq l l = true
  | .nil => rfl
  | .cons h tl => by simp [tyListBeq, tyBeq_refl h, tyListBeq_refl tl]

/-- boundBeq is reflexive. -/
def boundBeq_refl : (b : TypeParamBound) → boundBeq b b = true
  | .Trait tb => by simp [boundBeq, traitBoundBeq_refl tb]
  | .Lifetime r => by simp [boundBeq]

/-- boundListBeq is reflexive. -/
def boundListBeq_refl : (l : BoundList) → boundListBeq l l = true
  | .nil => rfl
  | .cons h tl => by simp [boundListBeq, boundBeq_refl h, boundListBeq_refl tl]

/-- traitBoundBeq is reflexive. -/
def traitBoundBeq_refl : (b : TraitBound) → traitBoundBeq b b = true
  | .mk p l => by simp [traitBoundBeq, pathBeq_refl p]

/-- pathBeq is reflexive. -/
def pathBeq_refl : (p : Path) → pathBeq p p = true
  | .mk g s => by simp [pathBeq, segListBeq_refl s]

/-- segListBeq is reflexive. -/
def segListBeq_refl : (l : SegList) → segListBeq l l = true
  | .nil => rfl
  | .cons h tl => by simp [segListBeq, segBeq_refl h, segListBeq_refl tl]

/-- segBeq is reflexive. -/
def segBeq_refl : (s : PathSegment) → segBeq s s = true
  | .mk i a => by simp [segBeq, pathArgsBeq_refl a]

/-- pathArgsBeq is reflexive. -/
def pathArgsBeq_refl : (a : PathArguments) → pathArgsBeq a a = true
  | .None => rfl
  | .AngleBracketed l => by simp [pathArgsBeq, argListBeq_refl l]
  | .Parenthesized i o => by simp [pathArgsBeq, tyListBeq_refl i, optionTyBeq_refl o]

/-- argListBeq is reflexive. -/
def argListBeq_refl : (l : ArgList) → argListBeq l l = true
  | .nil => rfl
  | .cons h tl => by simp [argListBeq, argBeq_refl h, argListBeq_refl tl]

/-- argBeq is reflexive. -/
def argBeq_refl : (a : GenericArgument) → argBeq a a = true
  | .typeArg t => by simp [argBeq, tyBeq_refl t]
  | .lifetimeArg r => by simp [argBeq]

/-- optionTyBeq is reflexive. -/
def optionTyBeq_refl : (o : OptionTy) → optionTyBeq o o = true
  | .noneTy => rfl
  | .someTy t => by simp [optionTyBeq, tyBeq_refl t]

/-- predBeq is reflexive. -/
def predBeq_refl : (p : PredicateType) → predBeq p p = true
  | .mk l t b => by simp [predBeq, tyBeq_refl t, boundListBeq_refl b]

/-- constraintBeq is reflexive. -/
def constraintBeq_refl : (c : GenericConstraint) → constraintBeq c c = true
  | .typePred p => by simp [constraintBeq, predBeq_refl p]
  | .lifetimeConstraint l => by simp [constraintBeq]

/-- constraintListBeq is reflexive. -/
def constraintListBeq_refl : (l : ConstraintList) → constraintListBeq l l = true
  | .nil => rfl
  | .cons h tl => by simp [constraintListBeq, constraintBeq_refl h, constraintListBeq_refl tl]

/-- genericsBeq is reflexive. -/
def genericsBeq_refl : (g : Generics) → genericsBeq g g = true
  | .mk p c => by simp [genericsBeq, constraintListBeq_refl c]

end

end Reflect

namespace Reflect

/-- Lookup in the Type-to-set-reference map (source: HashMap get). -/
def tyAssocLookup : List (TypeNode × TypeEqualitySetRef) → TypeNode → Option TypeEqualitySetRef
  | [], _ => none
  | (k, v) :: rest, ty => if tyBeq ty k then some v else tyAssocLookup rest ty

/-- Insert-overwrite in the Type-to-set-reference map
(source: HashMap insert). -/
def tyAssocInsert : List (TypeNode × TypeEqualitySetRef) → TypeNode → TypeEqualitySetRef →
    List (TypeNode × TypeEqualitySetRef)
  | [], ty, r => [(ty, r)]
  | (k, v) :: rest, ty, r =>
    if tyBeq ty k then (ty, r) :: rest else (k, v) :: tyAssocInsert rest ty r

/-- Lookup in the per-set most-concrete memo (source: BTreeMap get). -/
def memoLookup : List (TypeEqualitySetRef × TypeNode) → TypeEqualitySetRef → Option TypeNode
  | [], _ => none
  | (k, v) :: rest, r => if r = k then some v else memoLookup rest r

/-- Insert-overwrite in the per-set most-concrete memo
(source: BTreeMap insert). -/
def memoInsert : List (TypeEqualitySetRef × TypeNode) → TypeEqualitySetRef → TypeNode →
    List (TypeEqualitySetRef × TypeNode)
  | [], r, n => [(r, n)]
  | (k, v) :: rest, r, n => if r = k then (r, n) :: rest else (k, v) :: memoInsert rest r n

/-- A set of types that are considered to be equal
(source: struct TypeEqualitySet, a HashSet of Type). -/
structure TypeEqualitySet where
  set : List TypeNode

/-- Source TypeEqualitySet::new. -/
def TypeEqualitySet.new : TypeEqualitySet := ⟨[]⟩

/-- Source TypeEqualitySet::contains. -/
def TypeEqualitySet.contains (s : TypeEqualitySet) (ty : TypeNode) : Bool :=
  s.set.any (fun t => tyBeq ty t)

/-- Source TypeEqualitySet::insert (HashSet insert: no-op on duplicates). -/
def TypeEqualitySet.insert (s : TypeEqualitySet) (ty : TypeNode) : TypeEqualitySet :=
  if s.contains ty then s else ⟨s.set ++ [ty]⟩

/-- Source struct ConstraintSet, a HashSet of GenericConstraint. -/
structure ConstraintSet where
  set : List GenericConstraint

/-- Source ConstraintSet::new. -/
def ConstraintSet.new : ConstraintSet := ⟨[]⟩

/-- Source ConstraintSet::contains. -/
def ConstraintSet.contains (cs : ConstraintSet) (c : GenericConstraint) : Bool :=
  cs.set.any (fun c0 => constraintBeq c c0)

/-- Source ConstraintSet::insert (HashSet insert: no-op on duplicates). -/
def ConstraintSet.insert (cs : ConstraintSet) (c : GenericConstraint) : ConstraintSet :=
  if cs.contains c then cs else ⟨cs.set ++ [c]⟩

/-- A mapping between types and their corresponding set of equal types
(source: struct TypeEqualitySets with set_map and sets arena). -/
structure TypeEqualitySets where
  set_map : List (TypeNode × TypeEqualitySetRef)
  sets : List TypeEqualitySet

/-- Source TypeEqualitySets::new. -/
def TypeEqualitySets.new : TypeEqualitySets := ⟨[], []⟩

/-- Source TypeEqualitySets::contains_key. -/
def TypeEqualitySets.contains_key (S : TypeEqualitySets) (ty : TypeNode) : Bool :=
  (tyAssocLookup S.set_map ty).isSome

/-- Source TypeEqualitySets::get_set_ref. -/
def TypeEqualitySets.get_set_ref (S : TypeEqualitySets) (ty : TypeNode) :
    Option TypeEqualitySetRef :=
  tyAssocLookup S.set_map ty

/-- Source TypeEqualitySets::new_set: allocate a fresh singleton set for
ty (index_push appends to the arena) and point ty at it. -/
def TypeEqualitySets.new_set (S : TypeEqualitySets) (ty : TypeNode) :
    TypeEqualitySets × TypeEqualitySetRef :=
  (⟨tyAssocInsert S.set_map ty S.sets.length,
    S.sets ++ [TypeEqualitySet.new.insert ty]⟩, S.sets.length)

/-- Pointwise update of one arena slot. -/
def setsUpdate : List TypeEqualitySet → Nat → (TypeEqualitySet → TypeEqualitySet) →
    List TypeEqualitySet
  | [], _, _ => []
  | s :: rest, 0, f => f s :: rest
  | s :: rest, n+1, f => s :: setsUpdate rest n f

/-- The arena-and-map effect of the one-sided merge inside
insert_as_equal_to: insert ty into the set at r and repoint ty's map
entry to r. -/
def TypeEqualitySets.add_to_set (S : TypeEqualitySets) (r : TypeEqualitySetRef)
    (ty : TypeNode) : TypeEqualitySets :=
  ⟨tyAssocInsert S.set_map ty r, setsUpdate S.sets r (fun s => s.insert ty)⟩

/-- The arena-and-map effect of the neither-found branch of
insert_as_equal_to: one fresh set holding ty2 then ty1, both map
entries pointed at it. -/
def TypeEqualitySets.new_set_pair (S : TypeEqualitySets) (ty1 ty2 : TypeNode) :
    TypeEqualitySets :=
  ⟨tyAssocInsert (tyAssocInsert S.set_map ty2 S.sets.length) ty1 S.sets.length,
    S.sets ++ [(TypeEqualitySet.new.insert ty2).insert ty1]⟩

/-- True exactly when the pair (ty1, ty2) reaches the set-union logic of
insert_as_equal_to, i.e. matches none of the trait-object and
mixed-mutability special cases of its leading match. -/
def fallsToSetLogic : TypeNode → TypeNode → Bool
  | .TraitObject _, _ => false
  | _, .TraitObject _ => false
  | .Reference _ _, .ReferenceMut _ _ => false
  | .ReferenceMut _ _, .Reference _ _ => false
  | _, _ => true

/-- The set-union tail of insert_as_equal_to (source lines 162-185):
both set lookups are made on the state before the inner structural
recursion runs, and the arena/map updates are applied to the state the
inner recursion produced. -/
def applySetLogic (ty1 ty2 : TypeNode) (S : TypeEqualitySets)
    (inner : Except InferenceError (TypeEqualitySets × ConstraintSet)) :
    Except InferenceError (TypeEqualitySets × ConstraintSet) :=
  match inner with
  | .error e => .error e
  | .ok (S1, cs1) =>
    match S.get_set_ref ty1 with
    | some r => .ok (S1.add_to_set r ty2, cs1)
    | none =>
      match S.get_set_ref ty2 with
      | some r => .ok (S1.add_to_set r ty1, cs1)
      | none => .ok (S1.new_set_pair ty1 ty2, cs1)

/-- Work items of the unification family: insert_as_equal_to,
insert_inner_type_as_equal_to and insert_path_arguments_as_equal_to,
plus the iteration states of their zipped for_each loops. -/
inductive InsReq where
  | tys (ty1 ty2 : TypeNode)
  | inner (ty1 ty2 : TypeNode)
  | pathArgs (p1 p2 : Path)
  | tyPairs (l1 l2 : TyList)
  | argPairs (a1 a2 : ArgList)
  | boundPairs (b1 b2 : BoundList)

/-- Single fueled engine for the mutually recursive unification family.
Each constructor of InsReq is one source function (or the state of one
of its zipped loops); the fuel only bounds recursion depth and every
recursive call decrements it. -/
def insertGo : Nat → InsReq → TypeEqualitySets → ConstraintSet →
    Except InferenceError (TypeEqualitySets × ConstraintSet)
  | 0, _, _, _ => .error .outOfFuel
  | f+1, .tys ty1 ty2, S, cs =>
    match ty1, ty2 with
    | .TraitObject bounds1, .TraitObject bounds2 =>
      if bounds1.length ≠ bounds2.length then .error .arityMismatch
      else insertGo f (.inner (.TraitObject bounds1) (.TraitObject bounds2)) S cs
    | .TraitObject bounds, t2 =>
      .ok (S, cs.insert (.typePred (.mk [] t2 bounds)))
    | t1, .TraitObject bounds =>
      .ok (S, cs.insert (.typePred (.mk [] t1 bounds)))
    | .Reference _ inner1, .ReferenceMut _ inner2 => insertGo f (.tys inner1 inner2) S cs
    | .ReferenceMut _ inner1, .Reference _ inner2 => insertGo f (.tys inner1 inner2) S cs
    | t1, t2 => applySetLogic t1 t2 S (insertGo f (.inner t1 t2) S cs)
  | f+1, .inner ty1 ty2, S, cs =>
    match ty1, ty2 with
    | .Tuple types1, .Tuple types2 =>
      if types1.length = types2.length then insertGo f (.tyPairs types1 types2) S cs
      else .error .arityMismatch
    | .Reference _ inner1, .Reference _ inner2 => insertGo f (.tys inner1 inner2) S cs
    | .ReferenceMut _ inner1, .ReferenceMut _ inner2 => insertGo f (.tys inner1 inner2) S cs
    | .Path path1, .Path path2 => insertGo f (.pathArgs path1 path2) S cs
    | .TraitObject bounds1, .TraitObject bounds2 => insertGo f (.boundPairs bounds1 bounds2) S cs
    | _, _ => .ok (S, cs)
  | f+1, .pathArgs p1 p2, S, cs =>
    match p1.segments.getLast?, p2.segments.getLast? with
    | some segment1, some segment2 =>
      match segment1.args, segment2.args with
      | .AngleBracketed args1, .AngleBracketed args2 =>
        if args1.length = args2.length then insertGo f (.argPairs args1 args2) S cs
        else .ok (S, cs)
      | .Parenthesized _ _, _ => .error .unsupportedConstruct
      | _, .Parenthesized _ _ => .error .unsupportedConstruct
      | _, _ => .ok (S, cs)
    | _, _ => .error .internalInconsistency
  | f+1, .tyPairs l1 l2, S, cs =>
    match l1, l2 with
    | .cons h1 t1, .cons h2 t2 =>
      match insertGo f (.tys h1 h2) S cs with
      | .error e => .error e
      | .ok (S1, cs1) => insertGo f (.tyPairs t1 t2) S1 cs1
    | _, _ => .ok (S, cs)
  | f+1, .argPairs a1 a2, S, cs =>
    match a1, a2 with
    | .cons h1 t1, .cons h2 t2 =>
      match h1, h2 with
      | .typeArg ty1, .typeArg ty2 =>
        match insertGo f (.tys ty1 ty2) S cs with
        | .error e => .error e
        | .ok (S1, cs1) => insertGo f (.argPairs t1 t2) S1 cs1
      | _, _ => .error .unsupportedConstruct
    | _, _ => .ok (S, cs)
  | f+1, .boundPairs b1 b2, S, cs =>
    match b1, b2 with
    | .cons h1 t1, .cons h2 t2 =>
      match h1, h2 with
      | .Trait trait_bound1, .Trait trait_bound2 =>
        match insertGo f (.pathArgs trait_bound1.path trait_bound2.path) S cs with
        | .error e => .error e
        | .ok (S1, cs1) => insertGo f (.boundPairs t1 t2) S1 cs1
      | _, _ => insertGo f (.boundPairs t1 t2) S cs
    | _, _ => .ok (S, cs)

/-- Source TypeEqualitySets::insert_as_equal_to. -/
def TypeEqualitySets.insert_as_equal_to (S : TypeEqualitySets) (fuel : Nat)
    (ty1 ty2 : TypeNode) (cs : ConstraintSet) :
    Except InferenceError (TypeEqualitySets × ConstraintSet) :=
  insertGo fuel (.tys ty1 ty2) S cs

/-- Source TypeEqualitySets::insert_inner_type_as_equal_to. -/
def TypeEqualitySets.insert_inner_type_as_equal_to (S : TypeEqualitySets) (fuel : Nat)
    (ty1 ty2 : TypeNode) (cs : ConstraintSet) :
    Except InferenceError (TypeEqualitySets × ConstraintSet) :=
  insertGo fuel (.inner ty1 ty2) S cs

/-- Source TypeEqualitySets::insert_path_arguments_as_equal_to. -/
def TypeEqualitySets.insert_path_arguments_as_equal_to (S : TypeEqualitySets) (fuel : Nat)
    (p1 p2 : Path) (cs : ConstraintSet) :
    Except InferenceError (TypeEqualitySets × ConstraintSet) :=
  insertGo fuel (.pathArgs p1 p2) S cs

end Reflect

namespace Reflect

/-- The per-pass memo of resolved set representatives
(source: BTreeMap from TypeEqualitySetRef to TypeNode). -/
abbrev MostConcreteTypeMap := List (TypeEqualitySetRef × TypeNode)

/-- Replace the arguments of the last segment (source: the in-place
writes star-args1 = args / star-args2 = args of
Path::make_most_concrete_from_pair). -/
def SegList.withLastArgs : SegList → ArgList → SegList
  | .nil, _ => .nil
  | .cons s .nil, merged => .cons (.mk s.ident (.AngleBracketed merged)) .nil
  | .cons s (.cons s2 tl), merged => .cons s (SegList.withLastArgs (.cons s2 tl) merged)

/-- Path with the last segment's arguments replaced. -/
def Path.withLastArgs (p : Path) (merged : ArgList) : Path :=
  .mk p.global (p.segments.withLastArgs merged)

/-- Work items of the most-concrete resolver family:
TypeEqualitySetRef::make_most_concrete, TypeNode::make_most_concrete,
TypeNode::make_most_concrete_from_pair and
Path::make_most_concrete_from_pair, plus the iteration states of their
folds over set members, tuple elements and generic arguments. -/
inductive McReq where
  | setRef (r : TypeEqualitySetRef)
  | nodeReq (t : TypeNode)
  | pair (t1 t2 : TypeNode)
  | pathPair (p1 p2 : Path)
  | foldSet (cur : TypeNode) (rest : List TypeNode)
  | tupleMerge (l1 l2 : TyList)
  | argMerge (a1 a2 : ArgList)

/-- Results of the resolver family: a resolved node, a merged tuple
element list, or a merged generic-argument list. -/
inductive McOut where
  | node (t : TypeNode)
  | tys (l : TyList)
  | args (l : ArgList)

/-- Single fueled engine for the mutually recursive most-concrete
resolver family. Each constructor of McReq is one source function (or
the state of one of its folds); the fuel only bounds recursion depth
and every recursive call decrements it. -/
def mcGo : Nat → McReq → MostConcreteTypeMap → TypeEqualitySets →
    Except InferenceError (McOut × MostConcreteTypeMap)
  | 0, _, _, _ => .error .outOfFuel
  | f+1, .setRef r, memo, S =>
    match memoLookup memo r with
    | some node => .ok (.node node, memo)
    | none =>
      match (S.sets.get? r).map TypeEqualitySet.set with
      | none => .error .internalInconsistency
      | some [] => .error .internalInconsistency
      | some (first :: rest) =>
        match mcGo f (.foldSet first rest) (memoInsert memo r .Infer) S with
        | .ok (.node most_concrete, memo2) =>
          .ok (.node most_concrete, memoInsert memo2 r most_concrete)
        | .ok _ => .error .internalInconsistency
        | .error e => .error e
  | f+1, .nodeReq t, memo, S =>
    match S.get_set_ref t with
    | some r => mcGo f (.setRef r) memo S
    | none => .ok (.node t, memo)
  | f+1, .foldSet cur rest, memo, S =>
    match rest with
    | [] => .ok (.node cur, memo)
    | ty :: rest2 =>
      match mcGo f (.pair cur ty) memo S with
      | .ok (.node mc, memo1) => mcGo f (.foldSet mc rest2) memo1 S
      | .ok _ => .error .internalInconsistency
      | .error e => .error e
  | f+1, .pair ty1 ty2, memo, S =>
    match ty1, ty2 with
    | .Infer, node => mcGo f (.nodeReq node) memo S
    | node, .Infer => mcGo f (.nodeReq node) memo S
    | .PrimitiveStr, _ => .ok (.node .PrimitiveStr, memo)
    | _, .PrimitiveStr => .ok (.node .PrimitiveStr, memo)
    | .Path path1, .Path path2 => mcGo f (.pathPair path1 path2) memo S
    | .Path path1, _ => mcGo f (.nodeReq (.Path path1)) memo S
    | _, .Path path2 => mcGo f (.nodeReq (.Path path2)) memo S
    | .Tuple types1, .Tuple types2 =>
      if types1.length = types2.length then
        match mcGo f (.tupleMerge types1 types2) memo S with
        | .ok (.tys merged, memo1) => .ok (.node (.Tuple merged), memo1)
        | .ok _ => .error .internalInconsistency
        | .error e => .error e
      else .error .internalInconsistency
    | .Reference _ inner1, .Reference _ inner2 =>
      match mcGo f (.pair inner1 inner2) memo S with
      | .ok (.node inner, memo1) => .ok (.node (.Reference none inner), memo1)
      | .ok _ => .error .internalInconsistency
      | .error e => .error e
    | .ReferenceMut _ inner1, .ReferenceMut _ inner2 =>
      match mcGo f (.pair inner1 inner2) memo S with
      | .ok (.node inner, memo1) => .ok (.node (.ReferenceMut none inner), memo1)
      | .ok _ => .error .internalInconsistency
      | .error e => .error e
    | .TraitObject _, node => mcGo f (.nodeReq node) memo S
    | node, .TraitObject _ => mcGo f (.nodeReq node) memo S
    | .TypeParam ref1, .TypeParam ref2 =>
      .ok (.node (.TypeParam (if ref1 < ref2 then ref1 else ref2)), memo)
    | _, _ => .error .internalInconsistency
  | f+1, .pathPair p1 p2, memo, S =>
    match p1.segments.getLast?, p2.segments.getLast? with
    | some segment1, some segment2 =>
      match segment1.args, segment2.args with
      | .None, _ => .ok (.node (.Path p1), memo)
      | _, .None => .ok (.node (.Path p2), memo)
      | .AngleBracketed args1, .AngleBracketed args2 =>
        if args1.length < args2.length then mcGo f (.nodeReq (.Path p1)) memo S
        else if args2.length < args1.length then mcGo f (.nodeReq (.Path p2)) memo S
        else
          match mcGo f (.argMerge args1 args2) memo S with
          | .ok (.args merged, memo1) =>
            if p1.global || decide (p1.segments.length < p2.segments.length) then
              .ok (.node (.Path (p1.withLastArgs merged)), memo1)
            else
              .ok (.node (.Path (p2.withLastArgs merged)), memo1)
          | .ok _ => .error .internalInconsistency
          | .error e => .error e
      | .Parenthesized _ _, .Parenthesized _ _ => .error .unsupportedConstruct
      | _, _ => .error .internalInconsistency
    | _, _ => .error .internalInconsistency
  | f+1, .tupleMerge l1 l2, memo, S =>
    match l1, l2 with
    | .cons h1 t1, .cons h2 t2 =>
      match mcGo f (.pair h1 h2) memo S with
      | .ok (.node mc, memo1) =>
        match mcGo f (.tupleMerge t1 t2) memo1 S with
        | .ok (.tys merged, memo2) => .ok (.tys (.cons mc merged), memo2)
        | .ok _ => .error .internalInconsistency
        | .error e => .error e
      | .ok _ => .error .internalInconsistency
      | .error e => .error e
    | _, _ => .ok (.tys .nil, memo)
  | f+1, .argMerge a1 a2, memo, S =>
    match a1, a2 with
    | .cons h1 t1, .cons h2 t2 =>
      match h1, h2 with
      | .typeArg ty1, .typeArg ty2 =>
        match mcGo f (.pair ty1 ty2) memo S with
        | .ok (.node mc, memo1) =>
          match mcGo f (.argMerge t1 t2) memo1 S with
          | .ok (.args merged, memo2) => .ok (.args (.cons (.typeArg mc) merged), memo2)
          | .ok _ => .error .internalInconsistency
          | .error e => .error e
        | .ok _ => .error .internalInconsistency
        | .error e => .error e
      | .lifetimeArg lifetime_ref1, .lifetimeArg _ =>
        match mcGo f (.argMerge t1 t2) memo S with
        | .ok (.args merged, memo1) => .ok (.args (.cons (.lifetimeArg lifetime_ref1) merged), memo1)
        | .ok _ => .error .internalInconsistency
        | .error e => .error e
      | _, _ => .error .unsupportedConstruct
    | _, _ => .ok (.args .nil, memo)

/-- Projection of a resolver result expected to be a node. -/
def expectNode (r : Except InferenceError (McOut × MostConcreteTypeMap)) :
    Except InferenceError (TypeNode × MostConcreteTypeMap) :=
  match r with
  | .ok (.node t, memo) => .ok (t, memo)
  | .ok _ => .error .internalInconsistency
  | .error e => .error e

/-- Source TypeEqualitySetRef::make_most_concrete. -/
def TypeEqualitySetRef.make_most_concrete (r : TypeEqualitySetRef) (fuel : Nat)
    (memo : MostConcreteTypeMap) (S : TypeEqualitySets) :
    Except InferenceError (TypeNode × MostConcreteTypeMap) :=
  expectNode (mcGo fuel (.setRef r) memo S)

/-- Source TypeNode::make_most_concrete. -/
def TypeNode.make_most_concrete (t : TypeNode) (fuel : Nat)
    (memo : MostConcreteTypeMap) (S : TypeEqualitySets) :
    Except InferenceError (TypeNode × MostConcreteTypeMap) :=
  expectNode (mcGo fuel (.nodeReq t) memo S)

/-- Source TypeNode::make_most_concrete_from_pair. -/
def TypeNode.make_most_concrete_from_pair (fuel : Nat) (ty1 ty2 : TypeNode)
    (memo : MostConcreteTypeMap) (S : TypeEqualitySets) :
    Except InferenceError (TypeNode × MostConcreteTypeMap) :=
  expectNode (mcGo fuel (.pair ty1 ty2) memo S)

/-- Source Path::make_most_concrete_from_pair. -/
def Path.make_most_concrete_from_pair (fuel : Nat) (p1 p2 : Path)
    (memo : MostConcreteTypeMap) (S : TypeEqualitySets) :
    Except InferenceError (TypeNode × MostConcreteTypeMap) :=
  expectNode (mcGo fuel (.pathPair p1 p2) memo S)

end Reflect

namespace Reflect

/-- Source TypeNode::is_relevant (trait_inference.rs lines 422-447): a
node is relevant iff it is a TypeParam whose equality-set reference is
in the caller-supplied relevant collection, or a Reference/ReferenceMut
whose inner node is relevant; every other node shape is irrelevant.
The store and collection arguments come first so the recursion is
structural in the node. -/
def TypeNode.is_relevant (S : TypeEqualitySets) (relevant_generic_params : List TypeEqualitySetRef) :
    TypeNode → Bool
  | .TypeParam type_param_ref =>
    match S.get_set_ref (.TypeParam type_param_ref) with
    | some set_ref => relevant_generic_params.contains set_ref
    | none => false
  | .Reference _ inner => TypeNode.is_relevant S relevant_generic_params inner
  | .ReferenceMut _ inner => TypeNode.is_relevant S relevant_generic_params inner
  | _ => false
termination_by structural t => t

/-- The short-circuiting all() over one segment's angle-bracketed
arguments inside Path::is_relevant: type arguments must be relevant,
lifetime arguments always are. -/
def argsRelevantGo (S : TypeEqualitySets) (rel : List TypeEqualitySetRef) :
    ArgList → Except InferenceError Bool
  | .nil => .ok true
  | .cons (.typeArg ty) rest =>
    if TypeNode.is_relevant S rel ty then argsRelevantGo S rel rest else .ok false
  | .cons (.lifetimeArg _) rest => argsRelevantGo S rel rest

/-- Relevance of one path segment inside Path::is_relevant: no
arguments is relevant, angle-bracketed arguments delegate to
argsRelevantGo, parenthesized arguments are unimplemented!. -/
def segRelevant (S : TypeEqualitySets) (rel : List TypeEqualitySetRef)
    (segment : PathSegment) : Except InferenceError Bool :=
  match segment.args with
  | .None => .ok true
  | .AngleBracketed args => argsRelevantGo S rel args
  | .Parenthesized _ _ => .error .unsupportedConstruct

/-- The short-circuiting all() over the segments of
Path::is_relevant. -/
def segsRelevantGo (S : TypeEqualitySets) (rel : List TypeEqualitySetRef) :
    SegList → Except InferenceError Bool
  | .nil => .ok true
  | .cons segment rest =>
    match segRelevant S rel segment with
    | .error e => .error e
    | .ok true => segsRelevantGo S rel rest
    | .ok false => .ok false

/-- Source Path::is_relevant (trait_inference.rs lines 637-660): the
short-circuiting all() over every segment of the path. -/
def Path.is_relevant (S : TypeEqualitySets) (rel : List TypeEqualitySetRef)
    (p : Path) : Except InferenceError Bool :=
  segsRelevantGo S rel p.segments

/-- Source TypeParamBound::is_relevant: a trait bound delegates to its
path, a lifetime bound is always relevant. -/
def TypeParamBound.is_relevant (S : TypeEqualitySets) (rel : List TypeEqualitySetRef) :
    TypeParamBound → Except InferenceError Bool
  | .Trait bound => Path.is_relevant S rel bound.path
  | .Lifetime _ => .ok true

/-- The short-circuiting all() over a predicate's bounds inside
PredicateType::is_relevant. -/
def boundsRelevantGo (S : TypeEqualitySets) (rel : List TypeEqualitySetRef) :
    BoundList → Except InferenceError Bool
  | .nil => .ok true
  | .cons bound rest =>
    match TypeParamBound.is_relevant S rel bound with
    | .error e => .error e
    | .ok true => boundsRelevantGo S rel rest
    | .ok false => .ok false

/-- Source PredicateType::is_relevant: the bounded type and (short
circuiting) every bound must be relevant. -/
def PredicateType.is_relevant (S : TypeEqualitySets) (rel : List TypeEqualitySetRef)
    (pred : PredicateType) : Except InferenceError Bool :=
  if TypeNode.is_relevant S rel pred.bounded_ty then boundsRelevantGo S rel pred.bounds
  else .ok false

/-- Source Path::make_most_relevant (trait_inference.rs lines 662-669):
the body is todo!(), so every call aborts the pass. -/
def Path.make_most_relevant (_fuel : Nat) (_p : Path) (_memo : MostConcreteTypeMap)
    (_S : TypeEqualitySets) (_rel : List TypeEqualitySetRef) :
    Except InferenceError (Option Path × MostConcreteTypeMap) :=
  .error .todoUnimplemented

/-- Source TypeNode::make_most_relevant: resolve to the most concrete
form, keep it when it is relevant. -/
def TypeNode.make_most_relevant (fuel : Nat) (t : TypeNode) (memo : MostConcreteTypeMap)
    (S : TypeEqualitySets) (rel : List TypeEqualitySetRef) :
    Except InferenceError (Option TypeNode × MostConcreteTypeMap) :=
  match t.make_most_concrete fuel memo S with
  | .error e => .error e
  | .ok (node, memo1) =>
    if TypeNode.is_relevant S rel node then .ok (some node, memo1) else .ok (none, memo1)

/-- Source TypeParamBound::make_most_relevant: a trait bound rebuilds
around its path's result (which is todo!()), a lifetime bound is passed
through. -/
def TypeParamBound.make_most_relevant (fuel : Nat) (b : TypeParamBound)
    (memo : MostConcreteTypeMap) (S : TypeEqualitySets) (rel : List TypeEqualitySetRef) :
    Except InferenceError (Option TypeParamBound × MostConcreteTypeMap) :=
  match b with
  | .Trait bound =>
    match Path.make_most_relevant fuel bound.path memo S rel with
    | .error e => .error e
    | .ok (some path, memo1) => .ok (some (.Trait (.mk path bound.lifetimes)), memo1)
    | .ok (none, memo1) => .ok (none, memo1)
  | .Lifetime r => .ok (some (.Lifetime r), memo)

/-- Source iter_option_to_option_vec applied to the mapped bounds of
PredicateType::make_most_relevant: every bound is evaluated in order
(the fold consumes the whole iterator) and the result is none as soon
as any bound's result is none. -/
def boundsMakeMostRelevantGo (fuel : Nat) (memo : MostConcreteTypeMap)
    (S : TypeEqualitySets) (rel : List TypeEqualitySetRef) :
    BoundList → Except InferenceError (Option BoundList × MostConcreteTypeMap)
  | .nil => .ok (some .nil, memo)
  | .cons bound rest =>
    match TypeParamBound.make_most_relevant fuel bound memo S rel with
    | .error e => .error e
    | .ok (bound?, memo1) =>
      match boundsMakeMostRelevantGo fuel memo1 S rel rest with
      | .error e => .error e
      | .ok (rest?, memo2) =>
        match bound?, rest? with
        | some bound2, some rest2 => .ok (some (.cons bound2 rest2), memo2)
        | _, _ => .ok (none, memo2)

/-- Source PredicateType::make_most_relevant. -/
def PredicateType.make_most_relevant (fuel : Nat) (pred : PredicateType)
    (memo : MostConcreteTypeMap) (S : TypeEqualitySets) (rel : List TypeEqualitySetRef) :
    Except InferenceError (Option PredicateType × MostConcreteTypeMap) :=
  match TypeNode.make_most_relevant fuel pred.bounded_ty memo S rel with
  | .error e => .error e
  | .ok (some bounded_ty, memo1) =>
    match boundsMakeMostRelevantGo fuel memo1 S rel pred.bounds with
    | .error e => .error e
    | .ok (some bounds, memo2) => .ok (some (.mk pred.lifetimes bounded_ty bounds), memo2)
    | .ok (none, memo2) => .ok (none, memo2)
  | .ok (none, memo1) => .ok (none, memo1)

/-- Source GenericConstraint::make_most_relevant. -/
def GenericConstraint.make_most_relevant (fuel : Nat) (c : GenericConstraint)
    (memo : MostConcreteTypeMap) (S : TypeEqualitySets) (rel : List TypeEqualitySetRef) :
    Except InferenceError (Option GenericConstraint × MostConcreteTypeMap) :=
  match c with
  | .typePred pred =>
    match PredicateType.make_most_relevant fuel pred memo S rel with
    | .error e => .error e
    | .ok (some pred2, memo1) => .ok (some (.typePred pred2), memo1)
    | .ok (none, memo1) => .ok (none, memo1)
  | .lifetimeConstraint l => .ok (some (.lifetimeConstraint l), memo)

/-- Ordered insertion into a BTreeSet of set references. -/
def sortedInsertNat : List Nat → Nat → List Nat
  | [], r => [r]
  | x :: rest, r =>
    if r < x then r :: x :: rest
    else if r = x then x :: rest
    else x :: sortedInsertNat rest r

mutual

/-- Source TypeNode::inner_param_set_refs: walk the node, and for every
TypeParam record its equality-set reference (allocating a fresh
singleton set when the parameter has none). -/
def TypeNode.inner_param_set_refs (S : TypeEqualitySets) (acc : List TypeEqualitySetRef) :
    TypeNode → Except InferenceError (TypeEqualitySets × List TypeEqualitySetRef)
  | .Tuple types => tyListInnerParamSetRefs S acc types
  | .Reference _ inner => TypeNode.inner_param_set_refs S acc inner
  | .ReferenceMut _ inner => TypeNode.inner_param_set_refs S acc inner
  | .Path path => Path.inner_param_set_refs S acc path
  | .TypeParam type_param_ref =>
    match S.get_set_ref (.TypeParam type_param_ref) with
    | some set_ref => .ok (S, sortedInsertNat acc set_ref)
    | none =>
      match S.new_set (.TypeParam type_param_ref) with
      | (S1, set_ref) => .ok (S1, sortedInsertNat acc set_ref)
  | _ => .ok (S, acc)
termination_by structural t => t

/-- Iteration of inner_param_set_refs over tuple elements. -/
def tyListInnerParamSetRefs (S : TypeEqualitySets) (acc : List TypeEqualitySetRef) :
    TyList → Except InferenceError (TypeEqualitySets × List TypeEqualitySetRef)
  | .nil => .ok (S, acc)
  | .cons h tl =>
    match TypeNode.inner_param_set_refs S acc h with
    | .error e => .error e
    | .ok (S1, acc1) => tyListInnerParamSetRefs S1 acc1 tl
termination_by structural l => l

/-- Source Path::inner_param_set_refs: walk every segment; lifetime
arguments and parenthesized arguments are unimplemented!. -/
def Path.inner_param_set_refs (S : TypeEqualitySets) (acc : List TypeEqualitySetRef) :
    Path → Except InferenceError (TypeEqualitySets × List TypeEqualitySetRef)
  | .mk _ segments => segListInnerParamSetRefs S acc segments
termination_by structural p => p

/-- Iteration of Path::inner_param_set_refs over segments. -/
def segListInnerParamSetRefs (S : TypeEqualitySets) (acc : List TypeEqualitySetRef) :
    SegList → Except InferenceError (TypeEqualitySets × List TypeEqualitySetRef)
  | .nil => .ok (S, acc)
  | .cons (.mk _ .None) rest => segListInnerParamSetRefs S acc rest
  | .cons (.mk _ (.AngleBracketed args)) rest =>
    match argListInnerParamSetRefs S acc args with
    | .error e => .error e
    | .ok (S1, acc1) => segListInnerParamSetRefs S1 acc1 rest
  | .cons (.mk _ (.Parenthesized _ _)) _ => .error .unsupportedConstruct
termination_by structural l => l

/-- Iteration of Path::inner_param_set_refs over one segment's
arguments. -/
def argListInnerParamSetRefs (S : TypeEqualitySets) (acc : List TypeEqualitySetRef) :
    ArgList → Except InferenceError (TypeEqualitySets × List TypeEqualitySetRef)
  | .nil => .ok (S, acc)
  | .cons (.typeArg ty) rest =>
    match TypeNode.inner_param_set_refs S acc ty with
    | .error e => .error e
    | .ok (S1, acc1) => argListInnerParamSetRefs S1 acc1 rest
  | .cons (.lifetimeArg _) _ => .error .unsupportedConstruct
termination_by structural l => l

end

end Reflect

namespace Reflect

/-- Ordering key used for the BTreeSet of GenericParam: type parameters
before lifetime parameters, then by stable index. Modelled from the
spec; only the iteration order of generic_param_set_refs depends on
it. -/
def gpKey : GenericParam → Nat × Nat
  | .typeParam r => (0, r)
  | .lifetimeParam r => (1, r)

/-- Ordered insertion into the BTreeSet of relevant generic
parameters. -/
def sortedInsertGp : List GenericParam → GenericParam → List GenericParam
  | [], p => [p]
  | x :: rest, p =>
    if gpKey p = gpKey x then x :: rest
    else if (gpKey p).1 < (gpKey x).1 ∨ ((gpKey p).1 = (gpKey x).1 ∧ (gpKey p).2 < (gpKey x).2) then
      p :: x :: rest
    else x :: sortedInsertGp rest p

/-- Insert every parameter of a declaration into the BTreeSet of
relevant generic parameters. -/
def addParams (rel : List GenericParam) : List GenericParam → List GenericParam
  | [] => rel
  | p :: rest => addParams (sortedInsertGp rel p) rest

/-- Insert every constraint of a declaration into the constraint set
(HashSet insert, so duplicates are dropped; the source's occasional
contains-before-insert check has the same effect). -/
def addConstraintList (cs : ConstraintSet) : ConstraintList → ConstraintSet
  | .nil => cs
  | .cons c rest => addConstraintList (cs.insert c) rest

/-- One step of generic_param_set_refs (trait_inference.rs lines
329-352), iterated over the BTreeSet of relevant generic parameters:
take the parameter's equality-set reference (allocating a singleton set
when absent; a lifetime parameter makes the type_param_ref unwrap
panic), and for each reference not checked yet resolve its most
concrete form and collect the set references of the type parameters
nested inside it. -/
def gpsrGo (fuel : Nat) :
    List GenericParam → List TypeEqualitySetRef → List TypeEqualitySetRef →
    MostConcreteTypeMap → TypeEqualitySets →
    Except InferenceError (List TypeEqualitySetRef × MostConcreteTypeMap × TypeEqualitySets)
  | [], _, acc, memo, S => .ok (acc, memo, S)
  | param :: rest, checked, acc, memo, S =>
    match param.type_param_ref with
    | none => .error .internalInconsistency
    | some type_param_ref =>
      match
        (match S.get_set_ref (.TypeParam type_param_ref) with
         | some set_ref => (S, set_ref)
         | none => S.new_set (.TypeParam type_param_ref)) with
      | (S1, set_ref) =>
        if checked.contains set_ref then gpsrGo fuel rest checked acc memo S1
        else
          match TypeEqualitySetRef.make_most_concrete set_ref fuel memo S1 with
          | .error e => .error e
          | .ok (node, memo1) =>
            match TypeNode.inner_param_set_refs S1 acc node with
            | .error e => .error e
            | .ok (S2, acc1) =>
              gpsrGo fuel rest (sortedInsertNat checked set_ref) acc1 memo1 S2

/-- Source generic_param_set_refs: all equality-set references of the
generic parameters relevant to the implementation, including parameters
nested inside the resolved forms. -/
def generic_param_set_refs (fuel : Nat) (relevant_generic_params : List GenericParam)
    (memo : MostConcreteTypeMap) (S : TypeEqualitySets) :
    Except InferenceError (List TypeEqualitySetRef × MostConcreteTypeMap × TypeEqualitySets) :=
  gpsrGo fuel relevant_generic_params [] [] memo S

/-- Modelled from the spec: the implemented trait of a CompleteImpl,
reduced to its optional generics (the defining struct lives outside the
three analysed files; compute_trait_bounds reads only trait_ty.generics). -/
structure TraitTy where
  generics : Option Generics

/-- Modelled from the spec: the owning type of an invoked function,
reduced to its optional generics (compute_trait_bounds reads only
parent.generics). -/
structure FuncParent where
  generics : Option Generics

/-- Modelled from the spec: an invoked function's signature — the
declared parameter types and the function's own generics (the defining
struct lives outside the three analysed files). -/
structure Signature where
  inputs : List TypeNode
  generics : Option Generics

/-- Modelled from the spec: the target of an invocation — its owning
type, if any, and its signature. -/
structure TargetFunction where
  parent : Option FuncParent
  sig : Signature

/-- Modelled from the spec: one recorded invocation — the target
function and the static types of the argument expressions (the source
reads val.node().get_type() for each argument value). -/
structure Invoke where
  function : TargetFunction
  args : List TypeNode

/-- Modelled from the spec: one member function with its recorded
invocations (the defining struct lives outside the three analysed
files; compute_trait_bounds reads only invokes). -/
structure CompleteFunction where
  invokes : List Invoke

/-- Modelled from the spec: one implementation to analyse — the
implementing type, the implemented trait (if any) and the member
functions. -/
structure CompleteImpl where
  ty : TypeNode
  trait_ty : Option TraitTy
  functions : List CompleteFunction

/-- The zipped for_each of CompleteFunction::compute_trait_bounds:
unify each declared parameter type with the corresponding argument's
static type. -/
def unifyInputsGo (fuel : Nat) :
    List TypeNode → List TypeNode → TypeEqualitySets → ConstraintSet →
    Except InferenceError (TypeEqualitySets × ConstraintSet)
  | ty :: tys, val :: vals, S, cs =>
    match S.insert_as_equal_to fuel ty val cs with
    | .error e => .error e
    | .ok (S1, cs1) => unifyInputsGo fuel tys vals S1 cs1
  | _, _, S, cs => .ok (S, cs)

/-- The per-invocation loop of CompleteFunction::compute_trait_bounds
(trait_inference.rs lines 792-833): unify arguments against declared
parameters, then copy forward the parent's declared constraints and the
callee's own declared constraints. -/
def invokesGo (fuel : Nat) :
    List Invoke → ConstraintSet → TypeEqualitySets →
    Except InferenceError (ConstraintSet × TypeEqualitySets)
  | [], cs, S => .ok (cs, S)
  | invoke :: rest, cs, S =>
    match unifyInputsGo fuel invoke.function.sig.inputs invoke.args S cs with
    | .error e => .error e
    | .ok (S1, cs1) =>
      let cs2 :=
        match invoke.function.parent with
        | some parent =>
          match parent.generics with
          | some generics => addConstraintList cs1 generics.constraints
          | none => cs1
        | none => cs1
      let cs3 :=
        match invoke.function.sig.generics with
        | some generics => addConstraintList cs2 generics.constraints
        | none => cs2
      invokesGo fuel rest cs3 S1

/-- Source CompleteFunction::compute_trait_bounds. -/
def CompleteFunction.compute_trait_bounds (fuel : Nat) (function : CompleteFunction)
    (cs : ConstraintSet) (S : TypeEqualitySets) :
    Except InferenceError (ConstraintSet × TypeEqualitySets) :=
  invokesGo fuel function.invokes cs S

/-- The per-function loop of CompleteImpl::compute_trait_bounds. -/
def functionsGo (fuel : Nat) :
    List CompleteFunction → ConstraintSet → TypeEqualitySets →
    Except InferenceError (ConstraintSet × TypeEqualitySets)
  | [], cs, S => .ok (cs, S)
  | function :: rest, cs, S =>
    match function.compute_trait_bounds fuel cs S with
    | .error e => .error e
    | .ok (cs1, S1) => functionsGo fuel rest cs1 S1

/-- The final filter_map of CompleteImpl::compute_trait_bounds:
rewrite each accumulated constraint to its most relevant form, drop the
irrelevant ones, and collect the survivors into a fresh set. -/
def filterConstraintsGo (fuel : Nat) :
    List GenericConstraint → MostConcreteTypeMap → TypeEqualitySets →
    List TypeEqualitySetRef → ConstraintSet →
    Except InferenceError ConstraintSet
  | [], _, _, _, acc => .ok acc
  | c :: rest, memo, S, rel, acc =>
    match GenericConstraint.make_most_relevant fuel c memo S rel with
    | .error e => .error e
    | .ok (some c2, memo1) => filterConstraintsGo fuel rest memo1 S rel (acc.insert c2)
    | .ok (none, memo1) => filterConstraintsGo fuel rest memo1 S rel acc

/-- Source CompleteImpl::compute_trait_bounds (trait_inference.rs lines
271-324): seed constraints and relevant parameters from the
implementing data structure and the implemented trait, process every
member function's invocations, close the relevant parameters over
their resolved forms, and filter the accumulated constraints. -/
def CompleteImpl.compute_trait_bounds (fuel : Nat) (impl : CompleteImpl) :
    Except InferenceError ConstraintSet :=
  let seeded :=
    match impl.ty with
    | .DataStructure _ generics =>
      (addConstraintList ConstraintSet.new generics.constraints, addParams [] generics.params)
    | _ => (ConstraintSet.new, ([] : List GenericParam))
  let seeded2 :=
    match impl.trait_ty with
    | some trait_ty =>
      match trait_ty.generics with
      | some generics =>
        (addConstraintList seeded.1 generics.constraints, addParams seeded.2 generics.params)
      | none => seeded
    | none => seeded
  match functionsGo fuel impl.functions seeded2.1 TypeEqualitySets.new with
  | .error e => .error e
  | .ok (cs, S) =>
    match generic_param_set_refs fuel seeded2.2 [] S with
    | .error e => .error e
    | .ok (relevant_refs, memo, S1) =>
      filterConstraintsGo fuel cs.set memo S1 relevant_refs ConstraintSet.new

end Reflect

namespace Reflect

/-- Source Type::reference (ty.rs lines 53-58): wrap in a shared
reference with no lifetime. -/
def TypeNode.reference (t : TypeNode) : TypeNode :=
  .Reference none t

/-- Source Type::reference_mut (ty.rs lines 60-65): wrap in a mutable
reference with no lifetime. -/
def TypeNode.reference_mut (t : TypeNode) : TypeNode :=
  .ReferenceMut none t

/-- Source Type::dereference (ty.rs lines 67-73): strip one reference
layer of either mutability, or wrap any other node in a Dereference
marker. -/
def TypeNode.dereference : TypeNode → TypeNode
  | .Reference _ inner => inner
  | .ReferenceMut _ inner => inner
  | other => .Dereference other

/-- Follows the spec's words for the comparison in claim C3: a path
relevance test that examines only the final segment. -/
def Path.is_relevant_spec_final_only (S : TypeEqualitySets)
    (rel : List TypeEqualitySetRef) (p : Path) : Except InferenceError Bool :=
  match p.segments.getLast? with
  | none => .ok true
  | some segment => segRelevant S rel segment

/-- One reference layer, used to state relevance monotonicity through
nested references. -/
inductive RefWrap where
  | shared (lifetime : Option LifetimeRef)
  | mutable (lifetime : Option LifetimeRef)

/-- Wrap a node in a nest of Reference / ReferenceMut layers. -/
def wrapRefs : List RefWrap → TypeNode → TypeNode
  | [], t => t
  | .shared lt :: rest, t => .Reference lt (wrapRefs rest t)
  | .mutable lt :: rest, t => .ReferenceMut lt (wrapRefs rest t)

mutual

/-- Whether a node syntactically mentions the type parameter r, used to
state claim C2 (a resolved form that contains p). -/
def TypeNode.mentionsParam (r : TypeParamRef) : TypeNode → Bool
  | .Infer => false
  | .Tuple types => TyList.mentionsParam r types
  | .PrimitiveStr => false
  | .Reference _ inner => TypeNode.mentionsParam r inner
  | .ReferenceMut _ inner => TypeNode.mentionsParam r inner
  | .Dereference inner => TypeNode.mentionsParam r inner
  | .TraitObject bounds => BoundList.mentionsParam r bounds
  | .DataStructure _ _ => false
  | .Path p => Path.mentionsParam r p
  | .TypeParam r2 => r = r2
termination_by structural t => t

/-- mentionsParam over tuple elements. -/
def TyList.mentionsParam (r : TypeParamRef) : TyList → Bool
  | .nil => false
  | .cons h tl => TypeNode.mentionsParam r h || TyList.mentionsParam r tl
termination_by structural l => l

/-- mentionsParam over bounds. -/
def BoundList.mentionsParam (r : TypeParamRef) : BoundList → Bool
  | .nil => false
  | .cons (.Trait (.mk p _)) tl => Path.mentionsParam r p || BoundList.mentionsParam r tl
  | .cons (.Lifetime _) tl => BoundList.mentionsParam r tl
termination_by structural l => l

/-- mentionsParam over a path. -/
def Path.mentionsParam (r : TypeParamRef) : Path → Bool
  | .mk _ segments => SegList.mentionsParam r segments
termination_by structural p => p

/-- mentionsParam over path segments. -/
def SegList.mentionsParam (r : TypeParamRef) : SegList → Bool
  | .nil => false
  | .cons (.mk _ .None) tl => SegList.mentionsParam r tl
  | .cons (.mk _ (.AngleBracketed args)) tl =>
    ArgList.mentionsParam r args || SegList.mentionsParam r tl
  | .cons (.mk _ (.Parenthesized inputs output)) tl =>
    TyList.mentionsParam r inputs || OptionTy.mentionsParam r output || SegList.mentionsParam r tl
termination_by structural l => l

/-- mentionsParam over generic arguments. -/
def ArgList.mentionsParam (r : TypeParamRef) : ArgList → Bool
  | .nil => false
  | .cons (.typeArg ty) tl => TypeNode.mentionsParam r ty || ArgList.mentionsParam r tl
  | .cons (.lifetimeArg _) tl => ArgList.mentionsParam r tl
termination_by structural l => l

/-- mentionsParam over an optional type. -/
def OptionTy.mentionsParam (r : TypeParamRef) : OptionTy → Bool
  | .noneTy => false
  | .someTy ty => TypeNode.mentionsParam r ty
termination_by structural o => o

end

mutual

/-- The grammar fragment on which the self-merge of claim C5 can
succeed: no Dereference or DataStructure node, no reference lifetimes,
every path non-empty, and no parenthesized path arguments. -/
def TypeNode.selfMergeSafe : TypeNode → Bool
  | .Infer => true
  | .Tuple types => TyList.selfMergeSafe types
  | .PrimitiveStr => true
  | .Reference lt inner => lt.isNone && TypeNode.selfMergeSafe inner
  | .ReferenceMut lt inner => lt.isNone && TypeNode.selfMergeSafe inner
  | .Dereference _ => false
  | .TraitObject bounds => BoundList.selfMergeSafe bounds
  | .DataStructure _ _ => false
  | .Path p => Path.selfMergeSafe p
  | .TypeParam _ => true
termination_by structural t => t

/-- selfMergeSafe over tuple elements. -/
def TyList.selfMergeSafe : TyList → Bool
  | .nil => true
  | .cons h tl => TypeNode.selfMergeSafe h && TyList.selfMergeSafe tl
termination_by structural l => l

/-- selfMergeSafe over bounds. -/
def BoundList.selfMergeSafe : BoundList → Bool
  | .nil => true
  | .cons (.Trait (.mk p _)) tl => Path.selfMergeSafe p && BoundList.selfMergeSafe tl
  | .cons (.Lifetime _) tl => BoundList.selfMergeSafe tl
termination_by structural l => l

/-- selfMergeSafe over a path: non-empty and safe segments. -/
def Path.selfMergeSafe : Path → Bool
  | .mk _ .nil => false
  | .mk _ (.cons s tl) => SegList.selfMergeSafe (.cons s tl)
termination_by structural p => p

/-- selfMergeSafe over path segments. -/
def SegList.selfMergeSafe : SegList → Bool
  | .nil => true
  | .cons (.mk _ .None) tl => SegList.selfMergeSafe tl
  | .cons (.mk _ (.AngleBracketed args)) tl =>
    ArgList.selfMergeSafe args && SegList.selfMergeSafe tl
  | .cons (.mk _ (.Parenthesized _ _)) _ => false
termination_by structural l => l

/-- selfMergeSafe over generic arguments. -/
def ArgList.selfMergeSafe : ArgList → Bool
  | .nil => true
  | .cons (.typeArg ty) tl => TypeNode.selfMergeSafe ty && ArgList.selfMergeSafe tl
  | .cons (.lifetimeArg _) tl => ArgList.selfMergeSafe tl
termination_by structural l => l

end

mutual

/-- Fuel bound for the self-merge of claim C5. -/
def szTy : TypeNode → Nat
  | .Infer => 2
  | .Tuple types => szTyList types + 1
  | .PrimitiveStr => 2
  | .Reference _ inner => szTy inner + 1
  | .ReferenceMut _ inner => szTy inner + 1
  | .Dereference inner => szTy inner + 1
  | .TraitObject _ => 2
  | .DataStructure _ _ => 2
  | .Path p => szPath p + 1
  | .TypeParam _ => 2
termination_by structural t => t

/-- Fuel bound over tuple elements. -/
def szTyList : TyList → Nat
  | .nil => 1
  | .cons h tl => szTy h + szTyList tl + 1
termination_by structural l => l

/-- Fuel bound over a path. -/
def szPath : Path → Nat
  | .mk _ segments => szSegList segments + 1
termination_by structural p => p

/-- Fuel bound over path segments. -/
def szSegList : SegList → Nat
  | .nil => 1
  | .cons s tl => szSeg s + szSegList tl + 1
termination_by structural l => l

/-- Fuel bound for one segment. -/
def szSeg : PathSegment → Nat
  | .mk _ .None => 1
  | .mk _ (.AngleBracketed args) => szArgList args + 1
  | .mk _ (.Parenthesized _ _) => 1
termination_by structural s => s

/-- Fuel bound over generic arguments. -/
def szArgList : ArgList → Nat
  | .nil => 1
  | .cons (.typeArg ty) tl => szTy ty + szArgList tl + 1
  | .cons (.lifetimeArg _) tl => szArgList tl + 1
termination_by structural l => l

end

end Reflect

namespace Reflect

set_option maxHeartbeats 4000000 in
mutual

/-- tyBeq is sound for propositional equality. -/
def tyBeq_eq : (a b : TypeNode) → tyBeq a b = true → a = b
  | .Infer, b, h => by
    cases b
    case Infer => rfl
    all_goals simp [tyBeq] at h
  | .Tuple l1, b, h => by
    cases b
    case Tuple l2 =>
      simp only [tyBeq] at h
      rw [tyListBeq_eq l1 l2 h]
    all_goals simp [tyBeq] at h
  | .PrimitiveStr, b, h => by
    cases b
    case PrimitiveStr => rfl
    all_goals simp [tyBeq] at h
  | .Reference lt1 i1, b, h => by
    cases b
    case Reference lt2 i2 =>
      simp only [tyBeq, Bool.and_eq_true, beq_iff_eq] at h
      rw [h.1, tyBeq_eq i1 i2 h.2]
    all_goals simp [tyBeq] at h
  | .ReferenceMut lt1 i1, b, h => by
    cases b
    case ReferenceMut lt2 i2 =>
      simp only [tyBeq, Bool.and_eq_true, beq_iff_eq] at h
      rw [h.1, tyBeq_eq i1 i2 h.2]
    all_goals simp [tyBeq] at h
  | .Dereference i1, b, h => by
    cases b
    case Dereference i2 =>
      simp only [tyBeq] at h
      rw [tyBeq_eq i1 i2 h]
    all_goals simp [tyBeq] at h
  | .TraitObject b1, b, h => by
    cases b
    case TraitObject b2 =>
      simp only [tyBeq] at h
      rw [boundListBeq_eq b1 b2 h]
    all_goals simp [tyBeq] at h
  | .DataStructure n1 g1, b, h => by
    cases b
    case DataStructure n2 g2 =>
      simp only [tyBeq, Bool.and_eq_true, beq_iff_eq] at h
      rw [h.1, genericsBeq_eq g1 g2 h.2]
    all_goals simp [tyBeq] at h
  | .Path p1, b, h => by
    cases b
    case Path p2 =>
      simp only [tyBeq] at h
      rw [pathBeq_eq p1 p2 h]
    all_goals simp [tyBeq] at h
  | .TypeParam r1, b, h => by
    cases b
    case TypeParam r2 =>
      simp only [tyBeq, beq_iff_eq] at h
      rw [h]
    all_goals simp [tyBeq] at h

/-- tyListBeq is sound for propositional equality. -/
def tyListBeq_eq : (a b : TyList) → tyListBeq a b = true → a = b
  | .nil, b, h => by
    cases b
    case nil => rfl
    all_goals simp [tyListBeq] at h
  | .cons h1 t1, b, h => by
    cases b
    case cons h2 t2 =>
      simp only [tyListBeq, Bool.and_eq_true] at h
      rw [tyBeq_eq h1 h2 h.1, tyListBeq_eq t1 t2 h.2]
    all_goals simp [tyListBeq] at h

/-- boundBeq is sound for propositional equality. -/
def boundBeq_eq : (a b : TypeParamBound) → boundBeq a b = true → a = b
  | .Trait b1, b, h => by
    cases b
    case Trait b2 =>
      simp only [boundBeq] at h
      rw [traitBoundBeq_eq b1 b2 h]
    all_goals simp [boundBeq] at h
  | .Lifetime r1, b, h => by
    cases b
    case Lifetime r2 =>
      simp only [boundBeq, beq_iff_eq] at h
      rw [h]
    all_goals simp [boundBeq] at h

/-- boundListBeq is sound for propositional equality. -/
def boundListBeq_eq : (a b : BoundList) → boundListBeq a b = true → a = b
  | .nil, b, h => by
    cases b
    case nil => rfl
    all_goals simp [boundListBeq] at h
  | .cons h1 t1, b, h => by
    cases b
    case cons h2 t2 =>
      simp only [boundListBeq, Bool.and_eq_true] at h
      rw [boundBeq_eq h1 h2 h.1, boundListBeq_eq t1 t2 h.2]
    all_goals simp [boundListBeq] at h

/-- traitBoundBeq is sound for propositional equality. -/
def traitBoundBeq_eq : (a b : TraitBound) → traitBoundBeq a b = true → a = b
  | .mk p1 l1, .mk p2 l2, h => by
    simp only [traitBoundBeq, Bool.and_eq_true, beq_iff_eq] at h
    rw [pathBeq_eq p1 p2 h.1, h.2]

/-- pathBeq is sound for propositional equality. -/
def pathBeq_eq : (a b : Path) → pathBeq a b = true → a = b
  | .mk g1 s1, .mk g2 s2, h => by
    simp only [pathBeq, Bool.and_eq_true, beq_iff_eq] at h
    rw [h.1, segListBeq_eq s1 s2 h.2]

/-- segListBeq is sound for propositional equality. -/
def segListBeq_eq : (a b : SegList) → segListBeq a b = true → a = b
  | .nil, b, h => by
    cases b
    case nil => rfl
    all_goals simp [segListBeq] at h
  | .cons h1 t1, b, h => by
    cases b
    case cons h2 t2 =>
      simp only [segListBeq, Bool.and_eq_true] at h
      rw [segBeq_eq h1 h2 h.1, segListBeq_eq t1 t2 h.2]
    all_goals simp [segListBeq] at h

/-- segBeq is sound for propositional equality. -/
def segBeq_eq : (a b : PathSegment) → segBeq a b = true → a = b
  | .mk i1 a1, .mk i2 a2, h => by
    simp only [segBeq, Bool.and_eq_true, beq_iff_eq] at h
    rw [h.1, pathArgsBeq_eq a1 a2 h.2]

/-- pathArgsBeq is sound for propositional equality. -/
def pathArgsBeq_eq : (a b : PathArguments) → pathArgsBeq a b = true → a = b
  | .None, b, h => by
    cases b
    case None => rfl
    all_goals simp [pathArgsBeq] at h
  | .AngleBracketed a1, b, h => by
    cases b
    case AngleBracketed a2 =>
      simp only [pathArgsBeq] at h
      rw [argListBeq_eq a1 a2 h]
    all_goals simp [pathArgsBeq] at h
  | .Parenthesized i1 o1, b, h => by
    cases b
    case Parenthesized i2 o2 =>
      simp only [pathArgsBeq, Bool.and_eq_true] at h
      rw [tyListBeq_eq i1 i2 h.1, optionTyBeq_eq o1 o2 h.2]
    all_goals simp [pathArgsBeq] at h

/-- argListBeq is sound for propositional equality. -/
def argListBeq_eq : (a b : ArgList) → argListBeq a b = true → a = b
  | .nil, b, h => by
    cases b
    case nil => rfl
    all_goals simp [argListBeq] at h
  | .cons h1 t1, b, h => by
    cases b
    case cons h2 t2 =>
      simp only [argListBeq, Bool.and_eq_true] at h
      rw [argBeq_eq h1 h2 h.1, argListBeq_eq t1 t2 h.2]
    all_goals simp [argListBeq] at h

/-- argBeq is sound for propositional equality. -/
def argBeq_eq : (a b : GenericArgument) → argBeq a b = true → a = b
  | .typeArg t1, b, h => by
    cases b
    case typeArg t2 =>
      simp only [argBeq] at h
      rw [tyBeq_eq t1 t2 h]
    all_goals simp [argBeq] at h
  | .lifetimeArg r1, b, h => by
    cases b
    case lifetimeArg r2 =>
      simp only [argBeq, beq_iff_eq] at h
      rw [h]
    all_goals simp [argBeq] at h

/-- optionTyBeq is sound for propositional equality. -/
def optionTyBeq_eq : (a b : OptionTy) → optionTyBeq a b = true → a = b
  | .noneTy, b, h => by
    cases b
    case noneTy => rfl
    all_goals simp [optionTyBeq] at h
  | .someTy t1, b, h => by
    cases b
    case someTy t2 =>
      simp only [optionTyBeq] at h
      rw [tyBeq_eq t1 t2 h]
    all_goals simp [optionTyBeq] at h

/-- predBeq is sound for propositional equality. -/
def predBeq_eq : (a b : PredicateType) → predBeq a b = true → a = b
  | .mk l1 t1 b1, .mk l2 t2 b2, h => by
    simp only [predBeq, Bool.and_eq_true, beq_iff_eq] at h
    rw [h.1.1, tyBeq_eq t1 t2 h.1.2, boundListBeq_eq b1 b2 h.2]

/-- constraintBeq is sound for propositional equality. -/
def constraintBeq_eq : (a b : GenericConstraint) → constraintBeq a b = true → a = b
  | .typePred p1, b, h => by
    cases b
    case typePred p2 =>
      simp only [constraintBeq] at h
      rw [predBeq_eq p1 p2 h]
    all_goals simp [constraintBeq] at h
  | .lifetimeConstraint l1, b, h => by
    cases b
    case lifetimeConstraint l2 =>
      simp only [constraintBeq, beq_iff_eq] at h
      rw [h]
    all_goals simp [constraintBeq] at h

/-- constraintListBeq is sound for propositional equality. -/
def constraintListBeq_eq : (a b : ConstraintList) → constraintListBeq a b = true → a = b
  | .nil, b, h => by
    cases b
    case nil => rfl
    all_goals simp [constraintListBeq] at h
  | .cons h1 t1, b, h => by
    cases b
    case cons h2 t2 =>
      simp only [constraintListBeq, Bool.and_eq_true] at h
      rw [constraintBeq_eq h1 h2 h.1, constraintListBeq_eq t1 t2 h.2]
    all_goals simp [constraintListBeq] at h

/-- genericsBeq is sound for propositional equality. -/
def genericsBeq_eq : (a b : Generics) → genericsBeq a b = true → a = b
  | .mk p1 c1, .mk p2 c2, h => by
    simp only [genericsBeq, Bool.and_eq_true, beq_iff_eq] at h
    rw [h.1, constraintListBeq_eq c1 c2 h.2]

end

end Reflect

namespace Reflect

/-- Whether the node is a TraitObject. -/
def isTraitObjectNode : TypeNode → Bool
  | .TraitObject _ => true
  | _ => false

/-- The type-or-lifetime arguments of one segment as a standard list
(empty for a segment without angle-bracketed arguments); used only in
theorem statements. -/
def PathSegment.angleArgs : PathSegment → List GenericArgument
  | .mk _ (.AngleBracketed args) => args.toList
  | _ => []

/-- Whether no segment of the list carries parenthesized arguments. -/
def SegList.parenFree : SegList → Bool
  | .nil => true
  | .cons (.mk _ (.Parenthesized _ _)) _ => false
  | .cons _ tl => SegList.parenFree tl

/-- The relevance condition claim C3 states for one generic argument:
type arguments must be relevant, lifetime arguments always count as
relevant. -/
def argRelevantProp (S : TypeEqualitySets) (rel : List TypeEqualitySetRef) :
    GenericArgument → Prop
  | .typeArg t => TypeNode.is_relevant S rel t = true
  | .lifetimeArg _ => True

/-- Per-segment part of selfMergeSafe. -/
def PathSegment.segSafe : PathSegment → Bool
  | .mk _ .None => true
  | .mk _ (.AngleBracketed args) => args.selfMergeSafe
  | .mk _ (.Parenthesized _ _) => false

/-- The empty equality-set store. -/
def emptySets : TypeEqualitySets := ⟨[], []⟩

/-- The implementation parameter P of Scenario A. -/
def paramP : TypeNode := .TypeParam 0

/-- The helper parameter T of Scenario A. -/
def paramT : TypeNode := .TypeParam 1

/-- The Display trait path of Scenario A. -/
def displayPath : Path := .mk false (.cons (.mk "Display" .None) .nil)

/-- The Clone trait path of Scenario A. -/
def clonePath : Path := .mk false (.cons (.mk "Clone" .None) .nil)

/-- The declared constraint P: Display of Scenario A. -/
def displayConstraint : GenericConstraint :=
  .typePred (.mk [] paramP (.cons (.Trait (.mk displayPath [])) .nil))

/-- The helper's declared constraint T: Clone of Scenario A. -/
def cloneConstraint : GenericConstraint :=
  .typePred (.mk [] paramT (.cons (.Trait (.mk clonePath [])) .nil))

/-- Scenario A of the spec: an implementation on a structure with
parameter P declared P: Display, whose one member function passes a
P-typed field to a helper with own generic T declared T: Clone. -/
def scenarioA : CompleteImpl :=
  { ty := .DataStructure "S" (.mk [.typeParam 0] (.cons displayConstraint .nil))
    trait_ty := none
    functions :=
      [⟨[⟨⟨none, ⟨[paramT], some (.mk [.typeParam 1] (.cons cloneConstraint .nil))⟩⟩,
         [paramP]⟩]⟩] }

/-- Scenario E of the spec: one invocation unifying a 2-element tuple
parameter with a 3-element tuple argument. -/
def scenarioE : CompleteImpl :=
  { ty := .DataStructure "S" (.mk [] .nil)
    trait_ty := none
    functions :=
      [⟨[⟨⟨none, ⟨[.Tuple (.cons paramT (.cons paramT .nil))], none⟩⟩,
         [.Tuple (.cons paramP (.cons paramP (.cons paramP .nil)))]⟩]⟩] }

/-- The path Vec angle-bracket TypeParam 1, a member of the cyclic
equality set below. -/
def vecOfT : TypeNode :=
  .Path (.mk false (.cons (.mk "Vec" (.AngleBracketed (.cons (.typeArg paramT) .nil))) .nil))

/-- A store whose set 0 contains TypeParam 1 and Vec of TypeParam 1,
with both types mapped back to set 0: resolving set 0 resolves a member
that refers back to set 0. -/
def cyclicStore : TypeEqualitySets := ⟨[(paramT, 0), (vecOfT, 0)], [⟨[paramT, vecOfT]⟩]⟩

/-- The tuple (P,) used against claim C2: a type whose equality set
resolves to a type containing TypeParam 0, nested under a Tuple
layer. -/
def c2Tuple : TypeNode := .Tuple (.cons paramP .nil)

/-- Store for the C2 counterexample: TypeParam 0 in set 0, the tuple in
set 1. -/
def c2Store : TypeEqualitySets := ⟨[(paramP, 0), (c2Tuple, 1)], [⟨[paramP]⟩, ⟨[c2Tuple]⟩]⟩

/-- The relevant-set collection of the C2 counterexample: exactly the
set of TypeParam 0. -/
def c2Rel : List TypeEqualitySetRef := [0]

/-- Two-segment path for the C3 counterexample: first segment A with
the irrelevant type argument TypeParam 7, final segment B without
arguments. -/
def c3Path : Path :=
  .mk false (.cons (.mk "A" (.AngleBracketed (.cons (.typeArg (.TypeParam 7)) .nil)))
    (.cons (.mk "B" .None) .nil))

/-- Local single-segment path A angle-bracket TypeParam 0 for the C9
counterexample. -/
def c9PathLocal : Path :=
  .mk false (.cons (.mk "A" (.AngleBracketed (.cons (.typeArg paramP) .nil))) .nil)

/-- Global two-segment path x::C angle-bracket TypeParam 0 for the C9
counterexample. -/
def c9PathGlobal : Path :=
  .mk true (.cons (.mk "x" .None)
    (.cons (.mk "C" (.AngleBracketed (.cons (.typeArg paramP) .nil))) .nil))

end Reflect

namespace Reflect

theorem tyBeq_false_of_ne {a b : TypeNode} (h : a ≠ b) : tyBeq a b = false := by
  cases hb : tyBeq a b
  · rfl
  · exact absurd (tyBeq_eq a b hb) h

theorem tyAssocLookup_insert_self (m : List (TypeNode × TypeEqualitySetRef))
    (ty : TypeNode) (r : TypeEqualitySetRef) :
    tyAssocLookup (tyAssocInsert m ty r) ty = some r := by
  induction m with
  | nil => simp [tyAssocInsert, tyAssocLookup, tyBeq_refl]
  | cons kv rest ih =>
    obtain ⟨k, v⟩ := kv
    cases hk : tyBeq ty k
    · simp [tyAssocInsert, hk, tyAssocLookup, ih]
    · simp [tyAssocInsert, hk, tyAssocLookup, tyBeq_refl]

theorem tyAssocLookup_insert_ne (m : List (TypeNode × TypeEqualitySetRef))
    (ty ty' : TypeNode) (r : TypeEqualitySetRef) (hne : ty' ≠ ty) :
    tyAssocLookup (tyAssocInsert m ty r) ty' = tyAssocLookup m ty' := by
  have hbeq : tyBeq ty' ty = false := tyBeq_false_of_ne hne
  induction m with
  | nil => simp [tyAssocInsert, tyAssocLookup, hbeq]
  | cons kv rest ih =>
    obtain ⟨k, v⟩ := kv
    cases hk : tyBeq ty k
    · simp [tyAssocInsert, hk, tyAssocLookup, ih]
    · obtain rfl : ty = k := tyBeq_eq ty k hk
      simp [tyAssocInsert, hk, tyAssocLookup, hbeq]

theorem setsUpdate_get_ne (l : List TypeEqualitySet) (i j : Nat)
    (g : TypeEqualitySet → TypeEqualitySet) (h : i ≠ j) :
    (setsUpdate l i g).get? j = l.get? j := by
  induction l generalizing i j with
  | nil => simp [setsUpdate]
  | cons s rest ih =>
    cases i with
    | zero =>
      cases j with
      | zero => exact absurd rfl h
      | succ j2 => simp [setsUpdate]
    | succ i2 =>
      cases j with
      | zero => rfl
      | succ j2 => exact ih i2 j2 (by omega)

theorem setsUpdate_get_self (l : List TypeEqualitySet) (i : Nat)
    (g : TypeEqualitySet → TypeEqualitySet) (h : i < l.length) :
    ∃ old, l.get? i = some old ∧ (setsUpdate l i g).get? i = some (g old) := by
  induction l generalizing i with
  | nil => simp at h
  | cons s rest ih =>
    cases i with
    | zero => exact ⟨s, rfl, rfl⟩
    | succ i2 =>
      obtain ⟨old, h1, h2⟩ := ih i2 (by simpa using h)
      exact ⟨old, h1, h2⟩

theorem insertGo_setLogic (f : Nat) (t1 t2 : TypeNode) (S : TypeEqualitySets)
    (cs : ConstraintSet) (h : fallsToSetLogic t1 t2 = true) :
    insertGo (f+1) (.tys t1 t2) S cs = applySetLogic t1 t2 S (insertGo f (.inner t1 t2) S cs) := by
  cases t1 <;> cases t2 <;> first
    | rfl
    | simp [fallsToSetLogic] at h

/-- C1: on Scenario A (implementation parameter P declared P: Display,
one member function passing a P-typed field to a helper requiring
T: Clone), the analysis pass does not complete: rewriting the surviving
constraints reaches the todo!() body of Path::make_most_relevant and
the pass aborts, instead of producing the constraint set
{P: Display, P: Clone} the claim states. -/
theorem C1_scenarioA_aborts_in_todo :
    scenarioA.compute_trait_bounds 60 = .error .todoUnimplemented := rfl

/-- C10: dereference cancels one layer of reference or mutable
reference construction, and wraps any non-reference node in a
Dereference marker. -/
theorem C10_dereference_inverts_reference : ∀ t : TypeNode,
    (TypeNode.reference t).dereference = t
    ∧ (TypeNode.reference_mut t).dereference = t
    ∧ ((∀ lt i, t ≠ .Reference lt i) → (∀ lt i, t ≠ .ReferenceMut lt i) →
        t.dereference = .Dereference t) := by
  intro t
  refine ⟨rfl, rfl, fun h1 h2 => ?_⟩
  cases t <;> first
    | rfl
    | exact absurd rfl (h1 _ _)
    | exact absurd rfl (h2 _ _)

/-- Witness for C10 at the concrete node PrimitiveStr. -/
theorem C10_dereference_inverts_reference_witness :
    (TypeNode.reference .PrimitiveStr).dereference = .PrimitiveStr
    ∧ (TypeNode.reference_mut .PrimitiveStr).dereference = .PrimitiveStr
    ∧ TypeNode.dereference .PrimitiveStr = .Dereference .PrimitiveStr := by
  obtain ⟨a, b, c⟩ := C10_dereference_inverts_reference .PrimitiveStr
  exact ⟨a, b, c (fun lt i h => by cases h) (fun lt i h => by cases h)⟩

/-- C7: when exactly one operand of insert_as_equal_to is a
TraitObject, the call records the constraint that the other operand
satisfies the trait object's bounds (with no bound lifetimes) and
returns with the equality-set store unchanged. -/
theorem C7_trait_object_emits_constraint_no_merge :
    (∀ (f : Nat) (bounds : BoundList) (ty2 : TypeNode) (S : TypeEqualitySets)
        (cs : ConstraintSet), isTraitObjectNode ty2 = false →
        S.insert_as_equal_to (f+1) (.TraitObject bounds) ty2 cs
          = .ok (S, cs.insert (.typePred (.mk [] ty2 bounds))))
    ∧ (∀ (f : Nat) (bounds : BoundList) (ty1 : TypeNode) (S : TypeEqualitySets)
        (cs : ConstraintSet), isTraitObjectNode ty1 = false →
        S.insert_as_equal_to (f+1) ty1 (.TraitObject bounds) cs
          = .ok (S, cs.insert (.typePred (.mk [] ty1 bounds)))) := by
  constructor
  · intro f bounds ty2 S cs h
    cases ty2 <;> first
      | rfl
      | simp [isTraitObjectNode] at h
  · intro f bounds ty1 S cs h
    cases ty1 <;> first
      | rfl
      | simp [isTraitObjectNode] at h

/-- Witness for C7: a field type passed where the trait-object bound
Iterator is expected yields the constraint field-type: Iterator and
leaves the store untouched. -/
theorem C7_trait_object_emits_constraint_no_merge_witness :
    emptySets.insert_as_equal_to 5
        (.TraitObject (.cons (.Trait (.mk (.mk false (.cons (.mk "Iterator" .None) .nil)) [])) .nil))
        paramP ConstraintSet.new
      = .ok (emptySets, ConstraintSet.new.insert
          (.typePred (.mk [] paramP
            (.cons (.Trait (.mk (.mk false (.cons (.mk "Iterator" .None) .nil)) [])) .nil)))) :=
  C7_trait_object_emits_constraint_no_merge.1 4
    (.cons (.Trait (.mk (.mk false (.cons (.mk "Iterator" .None) .nil)) [])) .nil)
    paramP emptySets ConstraintSet.new rfl

/-- C6: resolution of an equality-set reference is memoized (a memo hit
returns the memoized representative and leaves the memo unchanged);
when the reference is not memoized, the memo is first seeded with the
Infer placeholder and the fold over the set members starts from the
first member, so that on the concrete cyclic store (set 0 containing
TypeParam 1 and Vec of TypeParam 1, both mapped to set 0) resolution
terminates, the inner self-reference resolving to the seeded
placeholder. -/
theorem C6_resolve_memoized_and_cycle_terminates :
    (∀ (f : Nat) (r : TypeEqualitySetRef) (v : TypeNode) (memo : MostConcreteTypeMap)
        (S : TypeEqualitySets), memoLookup memo r = some v →
        TypeEqualitySetRef.make_most_concrete r (f+1) memo S = .ok (v, memo))
    ∧ (∀ (f : Nat) (r : TypeEqualitySetRef) (memo : MostConcreteTypeMap)
        (S : TypeEqualitySets) (first : TypeNode) (rest : List TypeNode),
        memoLookup memo r = none →
        (S.sets.get? r).map TypeEqualitySet.set = some (first :: rest) →
        mcGo (f+1) (.setRef r) memo S
          = (match mcGo f (.foldSet first rest) (memoInsert memo r .Infer) S with
             | .ok (.node most_concrete, memo2) =>
               .ok (.node most_concrete, memoInsert memo2 r most_concrete)
             | .ok _ => .error .internalInconsistency
             | .error e => .error e))
    ∧ TypeEqualitySetRef.make_most_concrete 0 20 [] cyclicStore = .ok (.Infer, [(0, .Infer)]) := by
  refine ⟨?_, ?_, rfl⟩
  · intro f r v memo S h
    simp [TypeEqualitySetRef.make_most_concrete, mcGo, h, expectNode]
  · intro f r memo S first rest h1 h2
    simp only [mcGo, h1, h2]

/-- Witness for C6 discharging the memo-hit and seeding hypotheses at
concrete inputs. -/
theorem C6_resolve_memoized_and_cycle_terminates_witness :
    TypeEqualitySetRef.make_most_concrete 0 3 [(0, .PrimitiveStr)] emptySets
      = .ok (.PrimitiveStr, [(0, .PrimitiveStr)])
    ∧ mcGo 3 (.setRef 0) [] cyclicStore
      = (match mcGo 2 (.foldSet paramT [vecOfT]) (memoInsert [] 0 .Infer) cyclicStore with
         | .ok (.node most_concrete, memo2) =>
           .ok (.node most_concrete, memoInsert memo2 0 most_concrete)
         | .ok _ => .error .internalInconsistency
         | .error e => .error e) :=
  ⟨C6_resolve_memoized_and_cycle_terminates.1 2 0 .PrimitiveStr [(0, .PrimitiveStr)] emptySets rfl,
   C6_resolve_memoized_and_cycle_terminates.2.1 2 0 [] cyclicStore paramT [vecOfT] rfl rfl⟩

end Reflect

namespace Reflect

/-- C2 as stated is refuted: in c2Store, TypeParam 0 is relevant (its
set 0 is in the collection), the tuple (TypeParam 0,) has an equality
set that resolves to a type containing TypeParam 0 through a Tuple
layer, yet the tuple is not relevant. -/
theorem C2_counterexample_tuple_layer_not_relevant :
    TypeNode.is_relevant c2Store c2Rel paramP = true
    ∧ c2Store.get_set_ref c2Tuple = some 1
    ∧ TypeEqualitySetRef.make_most_concrete 1 10 [] c2Store = .ok (c2Tuple, [(1, c2Tuple)])
    ∧ TypeNode.mentionsParam 0 c2Tuple = true
    ∧ TypeNode.is_relevant c2Store c2Rel c2Tuple = false :=
  ⟨rfl, rfl, rfl, rfl, rfl⟩

/-- C2 amended: relevance is monotone through Reference and
MutableReference layers only — a TypeParam whose equality-set
reference is in the relevant collection stays relevant under any nest
of reference layers (but not under Tuple or Path layers, and the
relevance test never resolves the examined type). -/
theorem C2_amended_monotone_through_references :
    ∀ (S : TypeEqualitySets) (rel : List TypeEqualitySetRef) (ws : List RefWrap)
      (r : TypeParamRef) (sr : TypeEqualitySetRef),
      S.get_set_ref (.TypeParam r) = some sr → rel.contains sr = true →
      TypeNode.is_relevant S rel (wrapRefs ws (.TypeParam r)) = true := by
  intro S rel ws r sr h1 h2
  induction ws with
  | nil =>
    simp [wrapRefs, TypeNode.is_relevant, h1]
    simpa using h2
  | cons w rest ih =>
    cases w with
    | shared lt => simpa [wrapRefs, TypeNode.is_relevant] using ih
    | mutable lt => simpa [wrapRefs, TypeNode.is_relevant] using ih

/-- Witness for the amended C2 at a concrete double reference layer. -/
theorem C2_amended_monotone_through_references_witness :
    TypeNode.is_relevant c2Store c2Rel
      (wrapRefs [.shared none, .mutable (some 3)] paramP) = true :=
  C2_amended_monotone_through_references c2Store c2Rel
    [.shared none, .mutable (some 3)] 0 0 rfl rfl

theorem argsRelevantGo_total (S : TypeEqualitySets) (rel : List TypeEqualitySetRef)
    (a : ArgList) : ∃ b, argsRelevantGo S rel a = .ok b := by
  have key : ∀ (n : Nat) (a : ArgList), szArgList a ≤ n →
      ∃ b, argsRelevantGo S rel a = .ok b := by
    intro n
    induction n with
    | zero =>
      intro a ha
      exfalso
      cases a with
      | nil => simp [szArgList] at ha
      | cons hd tl => cases hd <;> simp [szArgList] at ha
    | succ n ih =>
      intro a ha
      cases a with
      | nil => exact ⟨true, rfl⟩
      | cons hd tl =>
        cases hd with
        | typeArg t =>
          have htl : szArgList tl ≤ n := by simp [szArgList] at ha; omega
          obtain ⟨b, hb⟩ := ih tl htl
          by_cases h : TypeNode.is_relevant S rel t = true
          · exact ⟨b, by simp [argsRelevantGo, h, hb]⟩
          · exact ⟨false, by simp [argsRelevantGo, h]⟩
        | lifetimeArg l =>
          have htl : szArgList tl ≤ n := by simp [szArgList] at ha; omega
          obtain ⟨b, hb⟩ := ih tl htl
          exact ⟨b, by simp [argsRelevantGo, hb]⟩
  exact key (szArgList a) a le_rfl

theorem argsRelevantGo_ok_true_iff (S : TypeEqualitySets) (rel : List TypeEqualitySetRef)
    (a : ArgList) :
    argsRelevantGo S rel a = .ok true ↔ ∀ arg ∈ a.toList, argRelevantProp S rel arg := by
  have key : ∀ (n : Nat) (a : ArgList), szArgList a ≤ n →
      (argsRelevantGo S rel a = .ok true ↔ ∀ arg ∈ a.toList, argRelevantProp S rel arg) := by
    intro n
    induction n with
    | zero =>
      intro a ha
      exfalso
      cases a with
      | nil => simp [szArgList] at ha
      | cons hd tl => cases hd <;> simp [szArgList] at ha
    | succ n ih =>
      intro a ha
      cases a with
      | nil => simp [argsRelevantGo, ArgList.toList]
      | cons hd tl =>
        cases hd with
        | typeArg t =>
          have htl : szArgList tl ≤ n := by simp [szArgList] at ha; omega
          by_cases h : TypeNode.is_relevant S rel t = true
          · simp [argsRelevantGo, h, ArgList.toList, ih tl htl, argRelevantProp]
          · simp [argsRelevantGo, h, ArgList.toList, argRelevantProp]
        | lifetimeArg l =>
          have htl : szArgList tl ≤ n := by simp [szArgList] at ha; omega
          simp [argsRelevantGo, ArgList.toList, ih tl htl, argRelevantProp]
  exact key (szArgList a) a le_rfl

theorem segsRelevantGo_ok_true_iff (S : TypeEqualitySets) (rel : List TypeEqualitySetRef) :
    ∀ (l : SegList), SegList.parenFree l = true →
    (segsRelevantGo S rel l = .ok true ↔
      ∀ seg ∈ l.toList, ∀ arg ∈ seg.angleArgs, argRelevantProp S rel arg) := by
  have key : ∀ (n : Nat) (l : SegList), szSegList l ≤ n → SegList.parenFree l = true →
      (segsRelevantGo S rel l = .ok true ↔
        ∀ seg ∈ l.toList, ∀ arg ∈ seg.angleArgs, argRelevantProp S rel arg) := by
    intro n
    induction n with
    | zero =>
      intro l hl _
      exfalso
      cases l with
      | nil => simp [szSegList] at hl
      | cons s tl => simp [szSegList] at hl
    | succ n ih0 =>
      intro l hl hp
      cases l with
      | nil => simp [segsRelevantGo, SegList.toList]
      | cons seg tl =>
        have htl : szSegList tl ≤ n := by
          have h1 : 1 ≤ szSeg seg := by
            obtain ⟨i, args⟩ := seg
            cases args <;> simp [szSeg]
          simp [szSegList] at hl
          omega
        have ih := fun hp2 => ih0 tl htl hp2
        obtain ⟨i, args⟩ := seg
        cases args with
        | None =>
          have hp2 : SegList.parenFree tl = true := hp
          simp [segsRelevantGo, segRelevant, PathSegment.args, SegList.toList, PathSegment.angleArgs, ih hp2]
        | AngleBracketed a =>
          have hp2 : SegList.parenFree tl = true := hp
          obtain ⟨b, hb⟩ := argsRelevantGo_total S rel a
          cases b
          · have hnot : ¬ (∀ arg ∈ a.toList, argRelevantProp S rel arg) := by
              intro hall
              have h2 := (argsRelevantGo_ok_true_iff S rel a).mpr hall
              rw [hb] at h2
              exact absurd h2 (by simp)
            rw [show segsRelevantGo S rel (.cons (.mk i (.AngleBracketed a)) tl) = .ok false from
              by simp [segsRelevantGo, segRelevant, PathSegment.args, hb]]
            constructor
            · intro h
              exact absurd h (by simp)
            · intro hall
              exfalso
              exact hnot (fun arg harg =>
                hall (.mk i (.AngleBracketed a)) (by simp [SegList.toList]) arg
                  (by simpa [PathSegment.angleArgs] using harg))
          · have hall : ∀ arg ∈ a.toList, argRelevantProp S rel arg :=
              (argsRelevantGo_ok_true_iff S rel a).mp hb
            constructor
            · intro h seg hseg
              rcases (by simpa [SegList.toList] using hseg :
                  seg = PathSegment.mk i (.AngleBracketed a) ∨ seg ∈ tl.toList) with rfl | hmem
              · intro arg harg
                exact hall arg (by simpa [PathSegment.angleArgs] using harg)
              · exact ((ih hp2).mp (by simpa [segsRelevantGo, segRelevant, PathSegment.args, hb] using h)) seg hmem
            · intro h
              simp only [segsRelevantGo, segRelevant, PathSegment.args, hb]
              exact (ih hp2).mpr (fun seg hmem => h seg (by simp [SegList.toList, hmem]))
        | Parenthesized inp out => simp [SegList.parenFree] at hp
  intro l hp
  exact key (szSegList l) l le_rfl hp

/-- C3 as stated is refuted: on the two-segment path A angle-bracket
TypeParam 7 followed by B, whose final segment has no arguments, the
source relevance test returns false (it examines the first segment's
irrelevant argument) while the final-segment-only reading of the claim
returns true. -/
theorem C3_counterexample_not_final_segment_only :
    Path.is_relevant emptySets [] c3Path = .ok false
    ∧ Path.is_relevant_spec_final_only emptySets [] c3Path = .ok true :=
  ⟨rfl, rfl⟩

/-- C3 amended: the relevance test examines every segment of the path:
for a parenthesized-free path, the path is relevant iff every
type-valued generic argument of every segment is relevant (lifetime
arguments always count as relevant); a parenthesized-argument segment
raises the unsupported-construct failure when evaluation reaches it,
as in the leading position. -/
theorem C3_amended_every_segment_checked :
    (∀ (S : TypeEqualitySets) (rel : List TypeEqualitySetRef) (p : Path),
      SegList.parenFree p.segments = true →
      (Path.is_relevant S rel p = .ok true ↔
        ∀ seg ∈ p.segments.toList, ∀ arg ∈ seg.angleArgs, argRelevantProp S rel arg))
    ∧ (∀ (S : TypeEqualitySets) (rel : List TypeEqualitySetRef) (g : Bool) (i : String)
        (inputs : TyList) (output : OptionTy) (rest : SegList),
        Path.is_relevant S rel (.mk g (.cons (.mk i (.Parenthesized inputs output)) rest))
          = .error .unsupportedConstruct) := by
  constructor
  · intro S rel p hp
    exact segsRelevantGo_ok_true_iff S rel p.segments hp
  · intro S rel g i inputs output rest
    rfl

/-- Witness for the amended C3: the single-segment argument-free path
Display is relevant, and a leading parenthesized segment raises the
unsupported-construct failure. -/
theorem C3_amended_every_segment_checked_witness :
    Path.is_relevant emptySets [] displayPath = .ok true
    ∧ Path.is_relevant emptySets []
        (.mk false (.cons (.mk "F" (.Parenthesized .nil .noneTy)) .nil))
      = .error .unsupportedConstruct := by
  constructor
  · refine (C3_amended_every_segment_checked.1 emptySets [] displayPath rfl).mpr ?_
    intro seg hseg arg harg
    simp [displayPath, Path.segments, SegList.toList] at hseg
    subst hseg
    simp [PathSegment.angleArgs] at harg
  · exact C3_amended_every_segment_checked.2 emptySets [] false "F" .nil .noneTy .nil

end Reflect

namespace Reflect

/-- C4: when insert_as_equal_to reaches the set-union logic with both
operands already in two different existing sets and the inner
structural recursion leaves the state unchanged, only the second
operand is added to the first operand's set and only its map entry is
repointed: every other map entry is unchanged, the second operand's
former set keeps its members, and the map still assigns the second
operand exactly one reference (the two sets are not fully unioned). -/
theorem C4_one_sided_merge (f : Nat) (ty1 ty2 : TypeNode) (S : TypeEqualitySets)
    (cs : ConstraintSet) (r1 r2 : TypeEqualitySetRef)
    (hshape : fallsToSetLogic ty1 ty2 = true)
    (h1 : S.get_set_ref ty1 = some r1)
    (h2 : S.get_set_ref ty2 = some r2)
    (hne : r1 ≠ r2)
    (hr1 : r1 < S.sets.length)
    (hinner : insertGo f (.inner ty1 ty2) S cs = .ok (S, cs)) :
    S.insert_as_equal_to (f+1) ty1 ty2 cs = .ok (S.add_to_set r1 ty2, cs)
    ∧ (S.add_to_set r1 ty2).get_set_ref ty2 = some r1
    ∧ (∀ ty, ty ≠ ty2 → (S.add_to_set r1 ty2).get_set_ref ty = S.get_set_ref ty)
    ∧ (S.add_to_set r1 ty2).sets.get? r2 = S.sets.get? r2
    ∧ (∃ old, S.sets.get? r1 = some old
        ∧ (S.add_to_set r1 ty2).sets.get? r1 = some (old.insert ty2)) := by
  refine ⟨?_, ?_, ?_, ?_, ?_⟩
  · show insertGo (f+1) (.tys ty1 ty2) S cs = _
    rw [insertGo_setLogic f ty1 ty2 S cs hshape, hinner]
    simp [applySetLogic, h1]
  · simp [TypeEqualitySets.add_to_set, TypeEqualitySets.get_set_ref,
      tyAssocLookup_insert_self]
  · intro ty hty
    simp [TypeEqualitySets.add_to_set, TypeEqualitySets.get_set_ref,
      tyAssocLookup_insert_ne _ _ _ _ hty]
  · exact setsUpdate_get_ne S.sets r1 r2 _ hne
  · exact setsUpdate_get_self S.sets r1 _ hr1

/-- Witness for C4 at a concrete store with TypeParam 0 in set 0 and
TypeParam 1 in set 1. -/
theorem C4_one_sided_merge_witness :
    (TypeEqualitySets.mk [(paramP, 0), (paramT, 1)] [⟨[paramP]⟩, ⟨[paramT]⟩]).insert_as_equal_to
        2 paramP paramT ConstraintSet.new
      = .ok ((TypeEqualitySets.mk [(paramP, 0), (paramT, 1)]
          [⟨[paramP]⟩, ⟨[paramT]⟩]).add_to_set 0 paramT, ConstraintSet.new)
    ∧ ((TypeEqualitySets.mk [(paramP, 0), (paramT, 1)]
        [⟨[paramP]⟩, ⟨[paramT]⟩]).add_to_set 0 paramT).get_set_ref paramT = some 0
    ∧ (∀ ty, ty ≠ paramT →
        ((TypeEqualitySets.mk [(paramP, 0), (paramT, 1)]
          [⟨[paramP]⟩, ⟨[paramT]⟩]).add_to_set 0 paramT).get_set_ref ty
          = (TypeEqualitySets.mk [(paramP, 0), (paramT, 1)]
              [⟨[paramP]⟩, ⟨[paramT]⟩]).get_set_ref ty)
    ∧ ((TypeEqualitySets.mk [(paramP, 0), (paramT, 1)]
        [⟨[paramP]⟩, ⟨[paramT]⟩]).add_to_set 0 paramT).sets.get? 1
        = (TypeEqualitySets.mk [(paramP, 0), (paramT, 1)]
            [⟨[paramP]⟩, ⟨[paramT]⟩]).sets.get? 1
    ∧ (∃ old, (TypeEqualitySets.mk [(paramP, 0), (paramT, 1)]
          [⟨[paramP]⟩, ⟨[paramT]⟩]).sets.get? 0 = some old
        ∧ ((TypeEqualitySets.mk [(paramP, 0), (paramT, 1)]
            [⟨[paramP]⟩, ⟨[paramT]⟩]).add_to_set 0 paramT).sets.get? 0
            = some (old.insert paramT)) :=
  C4_one_sided_merge 1 paramP paramT
    (TypeEqualitySets.mk [(paramP, 0), (paramT, 1)] [⟨[paramP]⟩, ⟨[paramT]⟩])
    ConstraintSet.new 0 1 rfl rfl rfl (by decide) (by decide) rfl

/-- C8: unifying two tuples with different element counts aborts the
whole pass fatally with the arity-mismatch error; with equal counts the
inner recursion is exactly the pairwise unification of corresponding
elements, and unification of the tuple pair succeeds whenever that
pairwise unification succeeds. On Scenario E (a 2-element tuple against
a 3-element tuple) the pass produces the arity-mismatch error and no
constraint set. -/
theorem C8_tuple_arity :
    (∀ (f : Nat) (l1 l2 : TyList) (S : TypeEqualitySets) (cs : ConstraintSet),
        l1.length ≠ l2.length →
        S.insert_as_equal_to (f+2) (.Tuple l1) (.Tuple l2) cs = .error .arityMismatch)
    ∧ (∀ (f : Nat) (l1 l2 : TyList) (S : TypeEqualitySets) (cs : ConstraintSet),
        l1.length = l2.length →
        S.insert_inner_type_as_equal_to (f+1) (.Tuple l1) (.Tuple l2) cs
          = insertGo f (.tyPairs l1 l2) S cs)
    ∧ (∀ (f : Nat) (l1 l2 : TyList) (S : TypeEqualitySets) (cs : ConstraintSet)
        (S1 : TypeEqualitySets) (cs1 : ConstraintSet),
        insertGo (f+1) (.inner (.Tuple l1) (.Tuple l2)) S cs = .ok (S1, cs1) →
        ∃ out, S.insert_as_equal_to (f+2) (.Tuple l1) (.Tuple l2) cs = .ok out)
    ∧ scenarioE.compute_trait_bounds 30 = .error .arityMismatch := by
  refine ⟨?_, ?_, ?_, rfl⟩
  · intro f l1 l2 S cs hne
    show insertGo (f+2) (.tys (.Tuple l1) (.Tuple l2)) S cs = _
    rw [insertGo_setLogic (f+1) (.Tuple l1) (.Tuple l2) S cs rfl]
    have hinner : insertGo (f+1) (.inner (.Tuple l1) (.Tuple l2)) S cs
        = .error .arityMismatch := by
      simp [insertGo, hne]
    rw [hinner]
    rfl
  · intro f l1 l2 S cs heq
    show insertGo (f+1) (.inner (.Tuple l1) (.Tuple l2)) S cs = _
    simp [insertGo, heq]
  · intro f l1 l2 S cs S1 cs1 hok
    show ∃ out, insertGo (f+2) (.tys (.Tuple l1) (.Tuple l2)) S cs = .ok out
    rw [insertGo_setLogic (f+1) (.Tuple l1) (.Tuple l2) S cs rfl, hok]
    cases hh1 : S.get_set_ref (.Tuple l1) with
    | some r =>
      exact ⟨(S1.add_to_set r (.Tuple l2), cs1), by simp [applySetLogic, hh1]⟩
    | none =>
      cases hh2 : S.get_set_ref (.Tuple l2) with
      | some r =>
        exact ⟨(S1.add_to_set r (.Tuple l1), cs1), by simp [applySetLogic, hh1, hh2]⟩
      | none =>
        exact ⟨(S1.new_set_pair (.Tuple l1) (.Tuple l2), cs1),
          by simp [applySetLogic, hh1, hh2]⟩

/-- Witness for C8 discharging the hypotheses at concrete tuples. -/
theorem C8_tuple_arity_witness :
    emptySets.insert_as_equal_to 3
        (.Tuple (.cons paramP (.cons paramP .nil))) (.Tuple (.cons paramT .nil))
        ConstraintSet.new = .error .arityMismatch
    ∧ emptySets.insert_inner_type_as_equal_to 2
        (.Tuple (.cons paramP .nil)) (.Tuple (.cons paramT .nil)) ConstraintSet.new
        = insertGo 1 (.tyPairs (.cons paramP .nil) (.cons paramT .nil)) emptySets
            ConstraintSet.new
    ∧ (∃ out, emptySets.insert_as_equal_to 5
        (.Tuple (.cons paramP .nil)) (.Tuple (.cons paramT .nil)) ConstraintSet.new
        = .ok out) := by
  refine ⟨?_, ?_, ?_⟩
  · exact C8_tuple_arity.1 1 (.cons paramP (.cons paramP .nil)) (.cons paramT .nil)
      emptySets ConstraintSet.new (by decide)
  · exact C8_tuple_arity.2.1 1 (.cons paramP .nil) (.cons paramT .nil)
      emptySets ConstraintSet.new rfl
  · exact C8_tuple_arity.2.2.1 3 (.cons paramP .nil) (.cons paramT .nil)
      emptySets ConstraintSet.new
      ⟨[(paramT, 0), (paramP, 0)], [⟨[paramT, paramP]⟩]⟩ ConstraintSet.new rfl

end Reflect

namespace Reflect

/-- C9 as stated is refuted: merging the local single-segment path
A angle-bracket TypeParam 0 with the global two-segment path
x::C angle-bracket TypeParam 0 (equal argument counts) writes the
merged arguments onto the local, structurally shorter path — the
source prefers path1 whenever path1 is global or shorter, so a global
path2 loses to a shorter local path1, contrary to the claim that the
merged list goes onto whichever path is global. -/
theorem C9_counterexample_global_path_loses :
    Path.make_most_concrete_from_pair 10 c9PathLocal c9PathGlobal [] emptySets
      = .ok (.Path c9PathLocal, [])
    ∧ c9PathGlobal.global = true
    ∧ c9PathLocal.global = false :=
  ⟨rfl, rfl, rfl⟩

/-- C9 amended: in the most-concrete merge of two paths, a final
segment without generic arguments wins outright (path1 first); with
angle-bracketed arguments of unequal count the fewer-argument path
wins fully resolved; with equal counts the merged argument list is
written onto path1 exactly when path1 is global or has strictly fewer
segments, and onto path2 otherwise — the global flag of path2 plays no
role. -/
theorem C9_amended_merge_selection :
    (∀ (f : Nat) (p1 p2 : Path) (memo : MostConcreteTypeMap) (S : TypeEqualitySets)
        (i1 : String) (seg2 : PathSegment),
        p1.segments.getLast? = some (.mk i1 .None) →
        p2.segments.getLast? = some seg2 →
        Path.make_most_concrete_from_pair (f+1) p1 p2 memo S = .ok (.Path p1, memo))
    ∧ (∀ (f : Nat) (p1 p2 : Path) (memo : MostConcreteTypeMap) (S : TypeEqualitySets)
        (i1 i2 : String) (a1 : ArgList),
        p1.segments.getLast? = some (.mk i1 (.AngleBracketed a1)) →
        p2.segments.getLast? = some (.mk i2 .None) →
        Path.make_most_concrete_from_pair (f+1) p1 p2 memo S = .ok (.Path p2, memo))
    ∧ (∀ (f : Nat) (p1 p2 : Path) (memo : MostConcreteTypeMap) (S : TypeEqualitySets)
        (i1 i2 : String) (a1 a2 : ArgList),
        p1.segments.getLast? = some (.mk i1 (.AngleBracketed a1)) →
        p2.segments.getLast? = some (.mk i2 (.AngleBracketed a2)) →
        a1.length < a2.length →
        Path.make_most_concrete_from_pair (f+1) p1 p2 memo S
          = TypeNode.make_most_concrete (.Path p1) f memo S)
    ∧ (∀ (f : Nat) (p1 p2 : Path) (memo : MostConcreteTypeMap) (S : TypeEqualitySets)
        (i1 i2 : String) (a1 a2 : ArgList),
        p1.segments.getLast? = some (.mk i1 (.AngleBracketed a1)) →
        p2.segments.getLast? = some (.mk i2 (.AngleBracketed a2)) →
        a2.length < a1.length →
        Path.make_most_concrete_from_pair (f+1) p1 p2 memo S
          = TypeNode.make_most_concrete (.Path p2) f memo S)
    ∧ (∀ (f : Nat) (p1 p2 : Path) (memo memo1 : MostConcreteTypeMap)
        (S : TypeEqualitySets) (i1 i2 : String) (a1 a2 merged : ArgList),
        p1.segments.getLast? = some (.mk i1 (.AngleBracketed a1)) →
        p2.segments.getLast? = some (.mk i2 (.AngleBracketed a2)) →
        a1.length = a2.length →
        mcGo f (.argMerge a1 a2) memo S = .ok (.args merged, memo1) →
        ((p1.global = true ∨ p1.segments.length < p2.segments.length →
            Path.make_most_concrete_from_pair (f+1) p1 p2 memo S
              = .ok (.Path (p1.withLastArgs merged), memo1))
          ∧ (p1.global = false → ¬ p1.segments.length < p2.segments.length →
            Path.make_most_concrete_from_pair (f+1) p1 p2 memo S
              = .ok (.Path (p2.withLastArgs merged), memo1)))) := by
  refine ⟨?_, ?_, ?_, ?_, ?_⟩
  · intro f p1 p2 memo S i1 seg2 h1 h2
    simp [Path.make_most_concrete_from_pair, mcGo, h1, h2, PathSegment.args, expectNode]
  · intro f p1 p2 memo S i1 i2 a1 h1 h2
    simp [Path.make_most_concrete_from_pair, mcGo, h1, h2, PathSegment.args, expectNode]
  · intro f p1 p2 memo S i1 i2 a1 a2 h1 h2 hlen
    simp [Path.make_most_concrete_from_pair, TypeNode.make_most_concrete, mcGo, h1, h2,
      PathSegment.args, hlen]
  · intro f p1 p2 memo S i1 i2 a1 a2 h1 h2 hlen
    have hnot : ¬ a1.length < a2.length := by omega
    simp [Path.make_most_concrete_from_pair, TypeNode.make_most_concrete, mcGo, h1, h2,
      PathSegment.args, hlen, hnot]
  · intro f p1 p2 memo memo1 S i1 i2 a1 a2 merged h1 h2 hlen hmerge
    have hn1 : ¬ a1.length < a2.length := by omega
    have hn2 : ¬ a2.length < a1.length := by omega
    constructor
    · intro hsel
      have hcond : (p1.global || decide (p1.segments.length < p2.segments.length)) = true := by
        rcases hsel with hg | hlt
        · simp [hg]
        · simp [hlt]
      simp [Path.make_most_concrete_from_pair, mcGo, h1, h2, PathSegment.args,
        hn1, hn2, hmerge, hcond, expectNode]
    · intro hg hlt
      have hcond : (p1.global || decide (p1.segments.length < p2.segments.length)) = false := by
        simp [hg, hlt]
      simp [Path.make_most_concrete_from_pair, mcGo, h1, h2, PathSegment.args,
        hn1, hn2, hmerge, hcond, expectNode]

/-- Witness for the amended C9 at the concrete counterexample paths:
equal argument counts, path1 local and shorter, so the merged list
goes onto path1. -/
theorem C9_amended_merge_selection_witness :
    Path.make_most_concrete_from_pair 10 c9PathLocal c9PathGlobal [] emptySets
      = .ok (.Path (c9PathLocal.withLastArgs (.cons (.typeArg paramP) .nil)), []) :=
  (C9_amended_merge_selection.2.2.2.2 9 c9PathLocal c9PathGlobal [] [] emptySets
    "A" "C" (.cons (.typeArg paramP) .nil) (.cons (.typeArg paramP) .nil)
    (.cons (.typeArg paramP) .nil) rfl rfl rfl rfl).1 (Or.inr (by decide))

end Reflect

namespace Reflect

theorem szTy_pos (t : TypeNode) : 1 ≤ szTy t := by
  cases t <;> simp only [szTy] <;> omega

theorem szTyList_pos (l : TyList) : 1 ≤ szTyList l := by
  cases l <;> simp only [szTyList] <;> omega

theorem szArgList_pos (a : ArgList) : 1 ≤ szArgList a := by
  cases a with
  | nil => simp [szArgList]
  | cons hd tl => cases hd <;> simp only [szArgList] <;> omega

theorem szPath_pos (p : Path) : 1 ≤ szPath p := by
  cases p <;> simp only [szPath] <;> omega

theorem getLast_cons_some (s : PathSegment) (tl : SegList) :
    ∃ seg, (SegList.cons s tl).getLast? = some seg := by
  have key : ∀ (n : Nat) (s : PathSegment) (tl : SegList), szSegList tl ≤ n →
      ∃ seg, (SegList.cons s tl).getLast? = some seg := by
    intro n
    induction n with
    | zero =>
      intro s tl h
      exfalso
      cases tl <;> simp only [szSegList] at h <;> omega
    | succ n ih =>
      intro s tl h
      cases tl with
      | nil => exact ⟨s, rfl⟩
      | cons s2 tl2 =>
        obtain ⟨seg, hseg⟩ := ih s2 tl2 (by simp only [szSegList] at h ⊢; omega)
        exact ⟨seg, hseg⟩
  exact key (szSegList tl) s tl le_rfl

theorem segList_getLast_szSeg (l : SegList) (seg : PathSegment)
    (h : l.getLast? = some seg) : szSeg seg < szSegList l := by
  have key : ∀ (n : Nat) (l : SegList) (seg : PathSegment), szSegList l ≤ n →
      l.getLast? = some seg → szSeg seg < szSegList l := by
    intro n
    induction n with
    | zero =>
      intro l seg hl _
      exfalso
      cases l <;> simp only [szSegList] at hl <;> omega
    | succ n ih =>
      intro l seg hl hlast
      cases l with
      | nil => simp [SegList.getLast?] at hlast
      | cons s tl =>
        cases tl with
        | nil =>
          simp only [SegList.getLast?] at hlast
          obtain rfl : s = seg := by injection hlast
          simp only [szSegList]
          omega
        | cons s2 tl2 =>
          have hlast2 : (SegList.cons s2 tl2).getLast? = some seg := hlast
          have := ih (.cons s2 tl2) seg (by simp only [szSegList] at hl ⊢; omega) hlast2
          simp only [szSegList] at this ⊢
          omega
  exact key (szSegList l) l seg le_rfl h

theorem segList_getLast_safe (l : SegList) (seg : PathSegment)
    (hs : SegList.selfMergeSafe l = true) (h : l.getLast? = some seg) :
    PathSegment.segSafe seg = true := by
  have key : ∀ (n : Nat) (l : SegList) (seg : PathSegment), szSegList l ≤ n →
      SegList.selfMergeSafe l = true → l.getLast? = some seg →
      PathSegment.segSafe seg = true := by
    intro n
    induction n with
    | zero =>
      intro l seg hl _ _
      exfalso
      cases l <;> simp only [szSegList] at hl <;> omega
    | succ n ih =>
      intro l seg hl hsafe hlast
      cases l with
      | nil => simp [SegList.getLast?] at hlast
      | cons s tl =>
        cases tl with
        | nil =>
          simp only [SegList.getLast?] at hlast
          obtain rfl : s = seg := by injection hlast
          obtain ⟨i, args⟩ := s
          cases args with
          | None => rfl
          | AngleBracketed a =>
            simp only [SegList.selfMergeSafe, Bool.and_eq_true] at hsafe
            simpa [PathSegment.segSafe] using hsafe.1
          | Parenthesized inp out => simp [SegList.selfMergeSafe] at hsafe
        | cons s2 tl2 =>
          have hlast2 : (SegList.cons s2 tl2).getLast? = some seg := hlast
          have hsafe2 : SegList.selfMergeSafe (.cons s2 tl2) = true := by
            obtain ⟨i, args⟩ := s
            cases args with
            | None => exact hsafe
            | AngleBracketed a =>
              simp only [SegList.selfMergeSafe, Bool.and_eq_true] at hsafe
              exact hsafe.2
            | Parenthesized inp out => simp [SegList.selfMergeSafe] at hsafe
          exact ih (.cons s2 tl2) seg (by simp only [szSegList] at hl ⊢; omega) hsafe2 hlast2
  exact key (szSegList l) l seg le_rfl hs h

theorem withLastArgs_self (l : SegList) (i : String) (a : ArgList)
    (h : l.getLast? = some (.mk i (.AngleBracketed a))) :
    SegList.withLastArgs l a = l := by
  have key : ∀ (n : Nat) (l : SegList), szSegList l ≤ n →
      l.getLast? = some (.mk i (.AngleBracketed a)) →
      SegList.withLastArgs l a = l := by
    intro n
    induction n with
    | zero =>
      intro l hl _
      exfalso
      cases l <;> simp only [szSegList] at hl <;> omega
    | succ n ih =>
      intro l hl hlast
      cases l with
      | nil => simp [SegList.getLast?] at hlast
      | cons s tl =>
        cases tl with
        | nil =>
          simp only [SegList.getLast?] at hlast
          obtain rfl : s = .mk i (.AngleBracketed a) := by injection hlast
          simp [SegList.withLastArgs, PathSegment.ident]
        | cons s2 tl2 =>
          have hlast2 : (SegList.cons s2 tl2).getLast? = some (.mk i (.AngleBracketed a)) := hlast
          have := ih (.cons s2 tl2) (by simp only [szSegList] at hl ⊢; omega) hlast2
          simp only [SegList.withLastArgs]
          rw [this]
  exact key (szSegList l) l le_rfl h

theorem mcGo_self_merge : ∀ (f : Nat),
    (∀ (t : TypeNode) (memo : MostConcreteTypeMap), t.selfMergeSafe = true → szTy t ≤ f →
      mcGo f (.pair t t) memo emptySets = .ok (.node t, memo))
    ∧ (∀ (l : TyList) (memo : MostConcreteTypeMap), l.selfMergeSafe = true → szTyList l ≤ f →
      mcGo f (.tupleMerge l l) memo emptySets = .ok (.tys l, memo))
    ∧ (∀ (a : ArgList) (memo : MostConcreteTypeMap), a.selfMergeSafe = true → szArgList a ≤ f →
      mcGo f (.argMerge a a) memo emptySets = .ok (.args a, memo))
    ∧ (∀ (p : Path) (memo : MostConcreteTypeMap), p.selfMergeSafe = true → szPath p ≤ f →
      mcGo f (.pathPair p p) memo emptySets = .ok (.node (.Path p), memo)) := by
  intro f
  induction f using Nat.strong_induction_on with
  | _ f ih =>
  cases f with
  | zero =>
    refine ⟨?_, ?_, ?_, ?_⟩
    · intro t memo _ hsz
      exact absurd hsz (by have := szTy_pos t; omega)
    · intro l memo _ hsz
      exact absurd hsz (by have := szTyList_pos l; omega)
    · intro a memo _ hsz
      exact absurd hsz (by have := szArgList_pos a; omega)
    · intro p memo _ hsz
      exact absurd hsz (by have := szPath_pos p; omega)
  | succ g =>
    have ihg := ih g (by omega)
    refine ⟨?_, ?_, ?_, ?_⟩
    · intro t memo hs hsz
      cases t with
      | Infer =>
        obtain ⟨g2, rfl⟩ : ∃ g2, g = g2 + 1 := by
          simp only [szTy] at hsz
          exact ⟨g - 1, by omega⟩
        simp [mcGo, TypeEqualitySets.get_set_ref, tyAssocLookup, emptySets]
      | Tuple l =>
        simp only [TypeNode.selfMergeSafe] at hs
        simp only [szTy] at hsz
        have hl := ihg.2.1 l memo hs (by omega)
        simp [mcGo, hl]
      | PrimitiveStr => simp [mcGo]
      | Reference lt i =>
        simp only [TypeNode.selfMergeSafe, Bool.and_eq_true, Option.isNone_iff_eq_none] at hs
        obtain ⟨rfl, hsi⟩ := hs
        simp only [szTy] at hsz
        have hi := ihg.1 i memo hsi (by omega)
        simp [mcGo, hi]
      | ReferenceMut lt i =>
        simp only [TypeNode.selfMergeSafe, Bool.and_eq_true, Option.isNone_iff_eq_none] at hs
        obtain ⟨rfl, hsi⟩ := hs
        simp only [szTy] at hsz
        have hi := ihg.1 i memo hsi (by omega)
        simp [mcGo, hi]
      | Dereference i => simp [TypeNode.selfMergeSafe] at hs
      | TraitObject b =>
        obtain ⟨g2, rfl⟩ : ∃ g2, g = g2 + 1 := by
          simp only [szTy] at hsz
          exact ⟨g - 1, by omega⟩
        simp [mcGo, TypeEqualitySets.get_set_ref, tyAssocLookup, emptySets]
      | DataStructure n gg => simp [TypeNode.selfMergeSafe] at hs
      | Path p =>
        simp only [TypeNode.selfMergeSafe] at hs
        simp only [szTy] at hsz
        have hp := ihg.2.2.2 p memo hs (by omega)
        simp [mcGo, hp]
      | TypeParam r => simp [mcGo]
    · intro l memo hs hsz
      cases l with
      | nil => simp [mcGo]
      | cons hd tl =>
        simp only [TyList.selfMergeSafe, Bool.and_eq_true] at hs
        simp only [szTyList] at hsz
        have h1 := ihg.1 hd memo hs.1 (by omega)
        have h2 := ihg.2.1 tl memo hs.2 (by omega)
        simp [mcGo, h1, h2]
    · intro a memo hs hsz
      cases a with
      | nil => simp [mcGo]
      | cons hd tl =>
        cases hd with
        | typeArg t =>
          simp only [ArgList.selfMergeSafe, Bool.and_eq_true] at hs
          simp only [szArgList] at hsz
          have h1 := ihg.1 t memo hs.1 (by omega)
          have h2 := ihg.2.2.1 tl memo hs.2 (by omega)
          simp [mcGo, h1, h2]
        | lifetimeArg r =>
          simp only [ArgList.selfMergeSafe] at hs
          simp only [szArgList] at hsz
          have h2 := ihg.2.2.1 tl memo hs (by omega)
          simp [mcGo, h2]
    · intro p memo hs hsz
      obtain ⟨gl, segs⟩ := p
      cases segs with
      | nil => simp [Path.selfMergeSafe] at hs
      | cons s tl =>
        have hsl : SegList.selfMergeSafe (.cons s tl) = true := hs
        obtain ⟨seg, hlast⟩ := getLast_cons_some s tl
        have hseg_safe := segList_getLast_safe (.cons s tl) seg hsl hlast
        have hseg_sz := segList_getLast_szSeg (.cons s tl) seg hlast
        simp only [szPath] at hsz
        obtain ⟨iName, args⟩ := seg
        cases args with
        | None =>
          simp [mcGo, Path.segments, hlast, PathSegment.args]
        | AngleBracketed a =>
          have hsa : ArgList.selfMergeSafe a = true := by
            simpa [PathSegment.segSafe] using hseg_safe
          have hsza : szArgList a ≤ g := by
            simp only [szSeg] at hseg_sz
            omega
          have hm := ihg.2.2.1 a memo hsa hsza
          have hwl := withLastArgs_self (.cons s tl) iName a hlast
          cases gl with
          | false =>
            simp [mcGo, Path.segments, hlast, PathSegment.args, hm, Nat.lt_irrefl,
              Path.withLastArgs, Path.global, hwl]
          | true =>
            simp [mcGo, Path.segments, hlast, PathSegment.args, hm, Nat.lt_irrefl,
              Path.withLastArgs, Path.global, hwl]
        | Parenthesized inp out => simp [PathSegment.segSafe] at hseg_safe

/-- C5 as stated is refuted: mostConcreteOfPair applied to the pair of
a Dereference node with itself (a Type of the closed grammar) reaches
the incompatible-types panic arm and aborts fatally. -/
theorem C5_counterexample_dereference_pair_fatal :
    TypeNode.make_most_concrete_from_pair 10 (.Dereference .Infer) (.Dereference .Infer)
      [] emptySets = .error .internalInconsistency := rfl

/-- C5 amended: for every type in the grammar fragment without
Dereference and DataStructure nodes, reference lifetimes, empty paths
and parenthesized path arguments, and in the empty equality store,
mostConcreteOfPair of the type with itself succeeds and returns the
type itself, which is also its fully resolved most-concrete form
there. -/
theorem C5_amended_self_pair_idempotent :
    ∀ (t : TypeNode) (f : Nat) (memo : MostConcreteTypeMap),
    t.selfMergeSafe = true → szTy t ≤ f →
    TypeNode.make_most_concrete_from_pair f t t memo emptySets = .ok (t, memo)
    ∧ TypeNode.make_most_concrete t f memo emptySets = .ok (t, memo) := by
  intro t f memo hs hsz
  constructor
  · have := (mcGo_self_merge f).1 t memo hs hsz
    simp [TypeNode.make_most_concrete_from_pair, this, expectNode]
  · obtain ⟨g, rfl⟩ : ∃ g, f = g + 1 := by
      have := szTy_pos t
      exact ⟨f - 1, by omega⟩
    simp [TypeNode.make_most_concrete, mcGo, TypeEqualitySets.get_set_ref,
      tyAssocLookup, emptySets, expectNode]

/-- Witness for the amended C5 at a concrete reference-wrapped type
parameter. -/
theorem C5_amended_self_pair_idempotent_witness :
    TypeNode.make_most_concrete_from_pair 5 (.Reference none (.TypeParam 5))
      (.Reference none (.TypeParam 5)) [] emptySets
      = .ok (.Reference none (.TypeParam 5), [])
    ∧ TypeNode.make_most_concrete (.Reference none (.TypeParam 5)) 5 [] emptySets
      = .ok (.Reference none (.TypeParam 5), []) :=
  C5_amended_self_pair_idempotent (.Reference none (.TypeParam 5)) 5 [] rfl (by decide)

end Reflect
